import Mathlib

/-!
# Verification of the pytest-leela mutation-testing core

A shallow embedding of the mutation generation and execution pipeline of
pytest-leela, covering:

* `ast_analysis.py` — the mutation-point scanner (`find_mutation_points`,
  `_MutationPointCollector`, `_classify_return_value`);
* `operators.py` — the operator registry (`UNTYPED_MUTATIONS`,
  `TYPED_MUTATIONS`, `mutations_for`, `count_pruned`);
* `import_hook.py` — the mutation applier (`MutantApplier`, `_OP_CLASSES`,
  `apply_mutation`);
* `models.py` — the data model (`MutationPoint`, `Mutant`, `MutantResult`,
  `CoverageMap`, `RunResult` and its derived properties);
* `runner.py` — the per-mutant runner's result classification
  (`run_tests_for_mutant`);
* `engine.py` — the orchestrator's mutant expansion, counting and result
  assembly (`Engine.run`).

Python's AST is untyped: any operator object can be placed in any operator
slot of any node.  The embedding therefore uses a single node type `PyAST`
with a single operator type `PyOp`, mirroring `ast.AST` and the operator
classes.  Source positions (`lineno`, `col_offset`) are attached to every
node as a `Loc`.  Parsing (source text to tree) is the Python `ast.parse`
collaborator and is out of scope; functions that take source text in Python
take the parsed tree here.
-/

/-- A source position: the `lineno` / `col_offset` attributes every located
`ast.AST` node carries. -/
structure Loc where
  lineno : Nat
  colOffset : Nat
deriving DecidableEq, Repr

/-- The Python AST operator classes that appear in the repository's tables
(`ast.Add` … `ast.RShift`, `ast.MatMult`, `ast.Eq` … `ast.NotIn`,
`ast.And`/`ast.Or`, `ast.UAdd`/`ast.USub`/`ast.Not`/`ast.Invert`).  Python
keeps them in one open universe, so one inductive models them all. -/
inductive PyOp where
  | add | sub | mult | div | floorDiv | modOp | powOp
  | bitAnd | bitOr | bitXor | lShift | rShift | matMult
  | eq | notEq | lt | ltE | gt | gtE | isOp | isNot | inOp | notIn
  | andOp | orOp
  | uAdd | uSub | notOp | invert
deriving DecidableEq, Repr

/-- Values of `ast.Constant` nodes, separated the way
`_classify_return_value` inspects them (`True`/`False`/`None` by identity,
then `int`, `float`, `str` by `isinstance`; anything else — bytes, complex,
ellipsis — falls through).  Python float literals are exact decimals, so a
rational models the value; the only float operation the code performs is the
comparison with `0.0`, which is exact. -/
inductive ConstVal where
  | boolC (b : Bool)
  | noneC
  | intC (n : Int)
  | floatC (q : Rat)
  | strC (s : String)
  | otherC
deriving DecidableEq, Repr

/-- The fragment of the Python AST the pipeline inspects, one constructor per
`ast` node class.  Statement and expression nodes live in one type, as in
Python.  `exceptHandler` is a node (`ast.ExceptHandler`), `ret` is
`ast.Return` with its optional value, `augAssign` is `ast.AugAssign`. -/
inductive PyAST where
  | binOp (p : Loc) (op : PyOp) (left right : PyAST)
  | compare (p : Loc) (left : PyAST) (ops : List PyOp) (comparators : List PyAST)
  | boolOp (p : Loc) (op : PyOp) (values : List PyAST)
  | unaryOp (p : Loc) (op : PyOp) (operand : PyAST)
  | ifExp (p : Loc) (test body orelse : PyAST)
  | constE (p : Loc) (v : ConstVal)
  | nameE (p : Loc) (id : String)
  | call (p : Loc) (func : PyAST) (args : List PyAST)
  | exprStmt (p : Loc) (value : PyAST)
  | ret (p : Loc) (value : Option PyAST)
  | augAssign (p : Loc) (target : PyAST) (op : PyOp) (value : PyAST)
  | breakStmt (p : Loc)
  | continueStmt (p : Loc)
  | forStmt (p : Loc) (target iter : PyAST) (body : List PyAST)
  | tryStmt (p : Loc) (body : List PyAST) (handlers : List PyAST)
      (orelse finalbody : List PyAST)
  | exceptHandler (p : Loc) (typeFilter : Option PyAST) (body : List PyAST)
  | raiseStmt (p : Loc) (exc : Option PyAST)
  | funcDef (p : Loc) (fname : String) (body : List PyAST)
  | passStmt (p : Loc)
deriving Repr

/-- `models.MutationPoint`: a location in source code where a mutation can be
applied (frozen dataclass). -/
structure MutationPoint where
  filePath : String
  moduleName : String
  lineno : Nat
  colOffset : Nat
  nodeType : String
  originalOp : String
  inferredType : Option String
deriving DecidableEq, Repr

/-- `models.Mutant`: a specific mutation to apply. -/
structure Mutant where
  point : MutationPoint
  replacementOp : String
  mutantId : Nat
deriving DecidableEq, Repr

/-! ## ast_analysis.py — the scanner -/

/-- `ast_analysis._BINOP_NAMES` as a partial map on operator classes.
`dict.get` on a class outside the table (e.g. `ast.MatMult`, or a
comparison operator sitting in a `BinOp` slot) yields `None`. -/
def binopNames : PyOp → Option String
  | .add => some "Add"
  | .sub => some "Sub"
  | .mult => some "Mult"
  | .div => some "Div"
  | .floorDiv => some "FloorDiv"
  | .modOp => some "Mod"
  | .powOp => some "Pow"
  | .bitAnd => some "BitAnd"
  | .bitOr => some "BitOr"
  | .bitXor => some "BitXor"
  | .lShift => some "LShift"
  | .rShift => some "RShift"
  | _ => Option.none

/-- `ast_analysis._CMPOP_NAMES`. -/
def cmpopNames : PyOp → Option String
  | .eq => some "Eq"
  | .notEq => some "NotEq"
  | .lt => some "Lt"
  | .ltE => some "LtE"
  | .gt => some "Gt"
  | .gtE => some "GtE"
  | .isOp => some "Is"
  | .isNot => some "IsNot"
  | .inOp => some "In"
  | .notIn => some "NotIn"
  | _ => Option.none

/-- `ast_analysis._BOOLOP_NAMES`. -/
def boolopNames : PyOp → Option String
  | .andOp => some "And"
  | .orOp => some "Or"
  | _ => Option.none

/-- `ast_analysis._UNARYOP_NAMES` (no entry for `ast.Invert`). -/
def unaryopNames : PyOp → Option String
  | .uAdd => some "UAdd"
  | .uSub => some "USub"
  | .notOp => some "Not"
  | _ => Option.none

/-- `ast_analysis._classify_return_value`: classify what kind of value a
return statement returns.  `-0 == 0` and `-0.0 == 0.0` in Python, so zero
literals are classified apart from nonzero ones. -/
def classifyReturnValue : PyAST → String
  | .constE _ (.boolC true) => "True"
  | .constE _ (.boolC false) => "False"
  | .constE _ .noneC => "None"
  | .constE _ (.intC n) => if n = 0 then "zero_int_literal" else "int_literal"
  | .constE _ (.floatC q) => if q = 0 then "zero_float_literal" else "float_literal"
  | .constE _ (.strC s) => if s = "" then "empty_str_literal" else "str_literal"
  | .unaryOp _ .uSub _ => "negation"
  | _ => "expr"

/-- `visit_ExceptHandler`: `isinstance(node.type, ast.Name) and
node.type.id == "Exception"`. -/
def isAlreadyException : Option PyAST → Bool
  | some (.nameE _ id) => id == "Exception"
  | _ => false

/-- `visit_ExceptHandler`: `len(node.body) == 1 and isinstance(node.body[0],
ast.Raise) and node.body[0].exc is None`. -/
def bodyIsBareRaise : List PyAST → Bool
  | [.raiseStmt _ Option.none] => true
  | _ => false

/-- The classification part of `visit_ExceptHandler`: the list of points the
handler node itself contributes (empty, or one point with the computed
`original_op` tag).  A broadest-type filter combined with a bare re-raise
body contributes nothing at all. -/
def exceptHandlerPoints (fp mn : String) (p : Loc) (typeFilter : Option PyAST)
    (body : List PyAST) : List MutationPoint :=
  if typeFilter.isSome then
    if isAlreadyException typeFilter && bodyIsBareRaise body then []
    else if isAlreadyException typeFilter then
      [⟨fp, mn, p.lineno, p.colOffset, "ExceptHandler", "typed_broadest", Option.none⟩]
    else if bodyIsBareRaise body then
      [⟨fp, mn, p.lineno, p.colOffset, "ExceptHandler", "typed_raise_body", Option.none⟩]
    else [⟨fp, mn, p.lineno, p.colOffset, "ExceptHandler", "typed", Option.none⟩]
  else if !(bodyIsBareRaise body) then
    [⟨fp, mn, p.lineno, p.colOffset, "ExceptHandler", "bare", Option.none⟩]
  else []

mutual

/-- `ast_analysis._MutationPointCollector`: one visit method per node shape,
each appending its point (pre-order) and then `generic_visit`-ing the
children in field order.  Node shapes without a visit method only recurse. -/
def collectNode (fp mn : String) : PyAST → List MutationPoint
  | .binOp p op l r =>
      (match binopNames op with
       | some opName =>
           [⟨fp, mn, p.lineno, p.colOffset, "BinOp", opName, Option.none⟩]
       | Option.none => [])
      ++ collectNode fp mn l ++ collectNode fp mn r
  | .compare p left ops comparators =>
      ops.filterMap (fun op =>
        (cmpopNames op).map (fun opName =>
          (⟨fp, mn, p.lineno, p.colOffset, "Compare", opName, Option.none⟩ :
            MutationPoint)))
      ++ collectNode fp mn left ++ collectList fp mn comparators
  | .boolOp p op values =>
      (match boolopNames op with
       | some opName =>
           [⟨fp, mn, p.lineno, p.colOffset, "BoolOp", opName, Option.none⟩]
       | Option.none => [])
      ++ collectList fp mn values
  | .unaryOp p op operand =>
      (match unaryopNames op with
       | some opName =>
           [⟨fp, mn, p.lineno, p.colOffset, "UnaryOp", opName, Option.none⟩]
       | Option.none => [])
      ++ collectNode fp mn operand
  | .ifExp p test body orelse =>
      ⟨fp, mn, p.lineno, p.colOffset, "IfExp", "ternary", Option.none⟩
      :: (collectNode fp mn test ++ collectNode fp mn body
          ++ collectNode fp mn orelse)
  | .constE _ _ => []
  | .nameE _ _ => []
  | .call _ func args => collectNode fp mn func ++ collectList fp mn args
  | .exprStmt _ value => collectNode fp mn value
  | .ret p value =>
      match value with
      | some v =>
          ⟨fp, mn, p.lineno, p.colOffset, "Return", classifyReturnValue v,
            Option.none⟩ :: collectNode fp mn v
      | Option.none => []
  | .augAssign p target op value =>
      (match binopNames op with
       | some opName =>
           [⟨fp, mn, p.lineno, p.colOffset, "AugAssign", opName, Option.none⟩]
       | Option.none => [])
      ++ collectNode fp mn target ++ collectNode fp mn value
  | .breakStmt p =>
      [⟨fp, mn, p.lineno, p.colOffset, "Break", "break", Option.none⟩]
  | .continueStmt p =>
      [⟨fp, mn, p.lineno, p.colOffset, "Continue", "continue", Option.none⟩]
  | .forStmt _ target iter body =>
      collectNode fp mn target ++ collectNode fp mn iter
      ++ collectList fp mn body
  | .tryStmt _ body handlers orelse finalbody =>
      collectList fp mn body ++ collectList fp mn handlers
      ++ collectList fp mn orelse ++ collectList fp mn finalbody
  | .exceptHandler p typeFilter body =>
      exceptHandlerPoints fp mn p typeFilter body
      ++ collectOpt fp mn typeFilter ++ collectList fp mn body
  | .raiseStmt _ exc => collectOpt fp mn exc
  | .funcDef _ _ body => collectList fp mn body
  | .passStmt _ => []

def collectList (fp mn : String) : List PyAST → List MutationPoint
  | [] => []
  | n :: ns => collectNode fp mn n ++ collectList fp mn ns

def collectOpt (fp mn : String) : Option PyAST → List MutationPoint
  | Option.none => []
  | some n => collectNode fp mn n

end

/-- `ast_analysis.find_mutation_points`: parse source code and find all
mutable AST nodes.  Parsing is the `ast.parse` collaborator; the embedding
takes the parsed module body. -/
def findMutationPoints (fp mn : String) (moduleBody : List PyAST) :
    List MutationPoint :=
  collectList fp mn moduleBody

/-! ## operators.py — the operator registry -/

/-- `operators.UNTYPED_MUTATIONS`: the dict literal, as an association list
keyed by (node kind, original operator).  Keys are pairwise distinct, so
lookup order is irrelevant, matching `dict` semantics. -/
def UNTYPED_MUTATIONS : List ((String × String) × List String) :=
  [ (("BinOp", "Add"), ["Sub", "Mult"]),
    (("BinOp", "Sub"), ["Add", "Mult"]),
    (("BinOp", "Mult"), ["Add", "FloorDiv"]),
    (("BinOp", "Div"), ["Mult", "FloorDiv"]),
    (("BinOp", "FloorDiv"), ["Div", "Mult"]),
    (("BinOp", "Mod"), ["FloorDiv", "Mult"]),
    (("BinOp", "Pow"), ["Mult"]),
    (("BinOp", "BitAnd"), ["BitOr", "BitXor"]),
    (("BinOp", "BitOr"), ["BitAnd", "BitXor"]),
    (("BinOp", "BitXor"), ["BitAnd", "BitOr"]),
    (("BinOp", "LShift"), ["RShift"]),
    (("BinOp", "RShift"), ["LShift"]),
    (("AugAssign", "Add"), ["Sub", "Mult"]),
    (("AugAssign", "Sub"), ["Add", "Mult"]),
    (("AugAssign", "Mult"), ["Add", "FloorDiv"]),
    (("AugAssign", "Div"), ["Mult", "FloorDiv"]),
    (("AugAssign", "FloorDiv"), ["Div", "Mult"]),
    (("AugAssign", "Mod"), ["FloorDiv", "Mult"]),
    (("AugAssign", "Pow"), ["Mult"]),
    (("AugAssign", "BitAnd"), ["BitOr", "BitXor"]),
    (("AugAssign", "BitOr"), ["BitAnd", "BitXor"]),
    (("AugAssign", "BitXor"), ["BitAnd", "BitOr"]),
    (("AugAssign", "LShift"), ["RShift"]),
    (("AugAssign", "RShift"), ["LShift"]),
    (("Compare", "Eq"), ["NotEq"]),
    (("Compare", "NotEq"), ["Eq"]),
    (("Compare", "Lt"), ["LtE", "GtE"]),
    (("Compare", "LtE"), ["Lt", "Gt"]),
    (("Compare", "Gt"), ["GtE", "LtE"]),
    (("Compare", "GtE"), ["Gt", "Lt"]),
    (("Compare", "Is"), ["IsNot"]),
    (("Compare", "IsNot"), ["Is"]),
    (("Compare", "In"), ["NotIn"]),
    (("Compare", "NotIn"), ["In"]),
    (("BoolOp", "And"), ["Or"]),
    (("BoolOp", "Or"), ["And"]),
    (("UnaryOp", "USub"), ["UAdd"]),
    (("UnaryOp", "UAdd"), ["USub"]),
    (("UnaryOp", "Not"), ["_remove"]),
    (("IfExp", "ternary"), ["swap_branches", "always_true", "always_false"]),
    (("Break", "break"), ["continue"]),
    (("Continue", "continue"), ["break"]),
    (("ExceptHandler", "typed"), ["broaden", "body_to_raise"]),
    (("ExceptHandler", "typed_broadest"), ["body_to_raise"]),
    (("ExceptHandler", "typed_raise_body"), ["broaden"]),
    (("ExceptHandler", "bare"), ["body_to_raise"]),
    (("Return", "True"), ["False"]),
    (("Return", "False"), ["True"]),
    (("Return", "None"), ["expr"]),
    (("Return", "expr"), ["None"]),
    (("Return", "int_literal"), ["negate"]),
    (("Return", "float_literal"), ["negate"]),
    (("Return", "str_literal"), ["empty_str"]),
    (("Return", "negation"), ["remove_negation"]) ]

/-- `operators.TYPED_MUTATIONS`: the typed dict literal, keyed by
(node kind, original operator, inferred type). -/
def TYPED_MUTATIONS : List ((String × String × String) × List String) :=
  [ (("BinOp", "Add", "int"), ["Sub", "Mult", "FloorDiv"]),
    (("BinOp", "Sub", "int"), ["Add", "Mult"]),
    (("BinOp", "Mult", "int"), ["Add", "FloorDiv"]),
    (("BinOp", "Div", "int"), ["Mult", "FloorDiv"]),
    (("BinOp", "FloorDiv", "int"), ["Mult", "Add"]),
    (("BinOp", "Mod", "int"), ["FloorDiv"]),
    (("BinOp", "Pow", "int"), ["Mult"]),
    (("BinOp", "BitAnd", "int"), ["BitOr", "BitXor"]),
    (("BinOp", "BitOr", "int"), ["BitAnd", "BitXor"]),
    (("BinOp", "BitXor", "int"), ["BitAnd", "BitOr"]),
    (("BinOp", "LShift", "int"), ["RShift"]),
    (("BinOp", "RShift", "int"), ["LShift"]),
    (("AugAssign", "Add", "int"), ["Sub", "Mult", "FloorDiv"]),
    (("AugAssign", "Sub", "int"), ["Add", "Mult"]),
    (("AugAssign", "Mult", "int"), ["Add", "FloorDiv"]),
    (("AugAssign", "Div", "int"), ["Mult", "FloorDiv"]),
    (("AugAssign", "FloorDiv", "int"), ["Mult", "Add"]),
    (("AugAssign", "Mod", "int"), ["FloorDiv"]),
    (("AugAssign", "Pow", "int"), ["Mult"]),
    (("AugAssign", "BitAnd", "int"), ["BitOr", "BitXor"]),
    (("AugAssign", "BitOr", "int"), ["BitAnd", "BitXor"]),
    (("AugAssign", "BitXor", "int"), ["BitAnd", "BitOr"]),
    (("AugAssign", "LShift", "int"), ["RShift"]),
    (("AugAssign", "RShift", "int"), ["LShift"]),
    (("AugAssign", "Add", "float"), ["Sub", "Mult", "Div"]),
    (("AugAssign", "Sub", "float"), ["Add", "Mult"]),
    (("AugAssign", "Mult", "float"), ["Add", "Div"]),
    (("AugAssign", "Div", "float"), ["Mult", "Sub"]),
    (("AugAssign", "Pow", "float"), ["Mult"]),
    (("AugAssign", "Add", "str"), []),
    (("AugAssign", "BitAnd", "bool"), ["BitOr"]),
    (("AugAssign", "BitOr", "bool"), ["BitAnd"]),
    (("AugAssign", "BitXor", "bool"), ["BitAnd", "BitOr"]),
    (("BinOp", "Add", "float"), ["Sub", "Mult", "Div"]),
    (("BinOp", "Sub", "float"), ["Add", "Mult"]),
    (("BinOp", "Mult", "float"), ["Add", "Div"]),
    (("BinOp", "Div", "float"), ["Mult", "Sub"]),
    (("BinOp", "Pow", "float"), ["Mult"]),
    (("BinOp", "BitAnd", "bool"), ["BitOr"]),
    (("BinOp", "BitOr", "bool"), ["BitAnd"]),
    (("BinOp", "BitXor", "bool"), ["BitAnd", "BitOr"]),
    (("BinOp", "Add", "str"), []),
    (("BinOp", "Mult", "str"), []),
    (("Return", "True", "bool"), ["False"]),
    (("Return", "False", "bool"), ["True"]),
    (("Return", "expr", "bool"), ["negate_expr"]),
    (("Return", "None", "Optional[int]"), ["expr"]),
    (("Return", "None", "Optional[str]"), ["expr"]),
    (("Return", "expr", "Optional[int]"), ["None"]),
    (("Return", "expr", "Optional[str]"), ["None"]),
    (("Return", "None", "Optional[float]"), ["expr"]),
    (("Return", "expr", "Optional[float]"), ["None"]),
    (("Compare", "Lt", "int"), ["LtE", "GtE"]),
    (("Compare", "LtE", "int"), ["Lt", "Gt"]),
    (("Compare", "Gt", "int"), ["GtE", "LtE"]),
    (("Compare", "GtE", "int"), ["Gt", "Lt"]),
    (("Compare", "Eq", "int"), ["NotEq"]),
    (("Compare", "NotEq", "int"), ["Eq"]),
    (("Compare", "Lt", "float"), ["LtE", "GtE"]),
    (("Compare", "LtE", "float"), ["Lt", "Gt"]),
    (("Compare", "Gt", "float"), ["GtE", "LtE"]),
    (("Compare", "GtE", "float"), ["Gt", "Lt"]),
    (("Compare", "Eq", "float"), ["NotEq"]),
    (("Compare", "NotEq", "float"), ["Eq"]),
    (("Compare", "In", "str"), ["NotIn"]),
    (("Compare", "NotIn", "str"), ["In"]),
    (("BoolOp", "And", "bool"), ["Or"]),
    (("BoolOp", "Or", "bool"), ["And"]),
    (("UnaryOp", "USub", "int"), ["UAdd"]),
    (("UnaryOp", "UAdd", "int"), ["USub"]),
    (("UnaryOp", "USub", "float"), ["UAdd"]),
    (("UnaryOp", "UAdd", "float"), ["USub"]),
    (("UnaryOp", "Not", "bool"), ["_remove"]),
    (("Return", "int_literal", "int"), ["negate"]),
    (("Return", "float_literal", "float"), ["negate"]),
    (("Return", "negation", "int"), ["remove_negation"]),
    (("Return", "negation", "float"), ["remove_negation"]),
    (("Return", "expr", "int"), ["negate_expr"]),
    (("Return", "expr", "float"), ["negate_expr"]),
    (("Return", "str_literal", "str"), ["empty_str"]) ]

/-- `UNTYPED_MUTATIONS.get(key_untyped, [])`: dict lookup is key equality,
checked component-wise. -/
def untypedGet (kind op : String) : List String :=
  match UNTYPED_MUTATIONS.find?
      (fun e => (e.fst.1 == kind) && (e.fst.2 == op)) with
  | some e => e.snd
  | Option.none => []

/-- `key in TYPED_MUTATIONS` / `TYPED_MUTATIONS[key]` combined: `some`
exactly when the key is present. -/
def typedFind (kind op ty : String) : Option (List String) :=
  (TYPED_MUTATIONS.find?
      (fun e => (e.fst.1 == kind) && (e.fst.2.1 == op) && (e.fst.2.2 == ty))).map
    (fun e => e.snd)

/-- `operators.mutations_for`: get the list of mutations applicable to a
mutation point.  `if use_types and point.inferred_type:` is Python
truthiness — an absent type and the empty string both skip the typed
lookup; an unknown type falls through to the untyped table. -/
def mutationsFor (point : MutationPoint) (useTypes : Bool) : List String :=
  match useTypes, point.inferredType with
  | true, some ty =>
      if ty == "" then untypedGet point.nodeType point.originalOp
      else
        match typedFind point.nodeType point.originalOp ty with
        | some l => l
        | Option.none => untypedGet point.nodeType point.originalOp
  | _, _ => untypedGet point.nodeType point.originalOp

/-- `operators.count_pruned`: count how many mutations are pruned by type
awareness.  Python integers are unbounded and the subtraction may go
negative, so the count is an `Int`. -/
def countPruned (points : List MutationPoint) (useTypes : Bool) : Int :=
  if useTypes = false then 0
  else
    points.foldl
      (fun acc p =>
        acc + (((mutationsFor p false).length : Int)
          - ((mutationsFor p true).length : Int)))
      0

/-! ## import_hook.py — the mutation applier -/

/-- `import_hook._OP_CLASSES`: AST operator classes by name.  The table in
the source stops at `Pow` for arithmetic: it has no entries for the
bitwise/shift names (`BitAnd`, `BitOr`, `BitXor`, `LShift`, `RShift`). -/
def opClasses : String → Option PyOp
  | "Add" => some .add
  | "Sub" => some .sub
  | "Mult" => some .mult
  | "Div" => some .div
  | "FloorDiv" => some .floorDiv
  | "Mod" => some .modOp
  | "Pow" => some .powOp
  | "Eq" => some .eq
  | "NotEq" => some .notEq
  | "Lt" => some .lt
  | "LtE" => some .ltE
  | "Gt" => some .gt
  | "GtE" => some .gtE
  | "Is" => some .isOp
  | "IsNot" => some .isNot
  | "In" => some .inOp
  | "NotIn" => some .notIn
  | "And" => some .andOp
  | "Or" => some .orOp
  | "UAdd" => some .uAdd
  | "USub" => some .uSub
  | "Not" => some .notOp
  | _ => Option.none

/-- `MutantApplier._matches` conjoined with the per-visit-method
`node_type == K` check: `self._matches(node) and
self.mutant.point.node_type == K`. -/
def fires (m : Mutant) (p : Loc) (k : String) : Bool :=
  ((p.lineno == m.point.lineno) && (p.colOffset == m.point.colOffset))
    && (m.point.nodeType == k)

/-- The part of `visit_Return` that runs on a bare `return` (no value):
`_mutate_return`'s elif chain followed by `generic_visit` of the (possibly
new) value, specialized to `node.value is None`.  The branches guarded by
`node.value is not None` / `isinstance(node.value, ast.UnaryOp)` fall
through without applying. -/
def retNone (m : Mutant) (p : Loc) (a : Bool) : PyAST × Bool :=
  if fires m p "Return" then
    if m.replacementOp == "False" then
      (.ret p (some (.constE p (.boolC false))), true)
    else if m.replacementOp == "True" then
      (.ret p (some (.constE p (.boolC true))), true)
    else if m.replacementOp == "None" then
      (.ret p (some (.constE p .noneC)), true)
    else if m.replacementOp == "negate" then (.ret p Option.none, a)
    else if m.replacementOp == "negate_expr" then (.ret p Option.none, a)
    else if m.replacementOp == "remove_negation" then (.ret p Option.none, a)
    else if m.replacementOp == "empty_str" then
      (.ret p (some (.constE p (.strC ""))), true)
    else (.ret p Option.none, a)
  else (.ret p Option.none, a)

/-- The part of `visit_Return` that runs on `return v`: `_mutate_return`'s
elif chain followed by `generic_visit` of the (possibly new) value, with the
visit of a freshly constructed node unfolded one step (a new `Constant` has
no children and no visit method; a new `UnaryOp` cannot re-fire here since
the mutant's node kind is "Return", so only its pre-existing operand is
visited).  The recursive visits are received as arguments: `vTrue` is the
visit of `v` with the applied flag already set, `vA` the visit of `v` with
the incoming flag, `operandRes` the visit (flag set) of `v`'s operand when
`v` is a `UnaryOp`.  Constructed nodes carry no position until
`ast.fix_missing_locations` copies the parent's; the embedding applies that
fix-up at construction time using the Return's position `p`. -/
def retSome (m : Mutant) (p : Loc) (a : Bool) (vTrue vA : PyAST × Bool)
    (operandRes : Option (PyAST × Bool)) : PyAST × Bool :=
  if fires m p "Return" then
    if m.replacementOp == "False" then
      (.ret p (some (.constE p (.boolC false))), true)
    else if m.replacementOp == "True" then
      (.ret p (some (.constE p (.boolC true))), true)
    else if m.replacementOp == "None" then
      (.ret p (some (.constE p .noneC)), true)
    else if m.replacementOp == "negate" then
      (.ret p (some (.unaryOp p .uSub vTrue.1)), vTrue.2)
    else if m.replacementOp == "negate_expr" then
      (.ret p (some (.unaryOp p .notOp vTrue.1)), vTrue.2)
    else if m.replacementOp == "remove_negation" then
      match operandRes with
      | some r => (.ret p (some r.1), r.2)
      | Option.none => (.ret p (some vA.1), vA.2)
    else if m.replacementOp == "empty_str" then
      (.ret p (some (.constE p (.strC ""))), true)
    else (.ret p (some vA.1), vA.2)
  else (.ret p (some vA.1), vA.2)


set_option maxHeartbeats 1600000 in
mutual

/-- `import_hook.MutantApplier`: an `ast.NodeTransformer` with visit methods
for exactly `BinOp`, `Compare`, `BoolOp`, `UnaryOp` and `Return`; every
other node shape falls to `generic_visit` (children only).  The mutable
`applied` flag is threaded explicitly.  Each visit method transforms the
node first and then `generic_visit`s the (possibly new) children; the
`_remove` branch of `visit_UnaryOp` returns the operand without visiting
it, as in the source. -/
def applyNode (m : Mutant) : PyAST → Bool → PyAST × Bool
  | .binOp p op l r, a =>
      let opA :=
        if fires m p "BinOp" then
          match opClasses m.replacementOp with
          | some c => (c, true)
          | Option.none => (op, a)
        else (op, a)
      let lA := applyNode m l opA.2
      let rA := applyNode m r lA.2
      (.binOp p opA.1 lA.1 rA.1, rA.2)
  | .compare p left ops comparators, a =>
      let opsA :=
        if fires m p "Compare" then
          match opClasses m.replacementOp with
          | some c => (ops.map (fun _ => c), true)
          | Option.none => (ops, a)
        else (ops, a)
      let leftA := applyNode m left opsA.2
      let compsA := applyList m comparators leftA.2
      (.compare p leftA.1 opsA.1 compsA.1, compsA.2)
  | .boolOp p op values, a =>
      let opA :=
        if fires m p "BoolOp" then
          match opClasses m.replacementOp with
          | some c => (c, true)
          | Option.none => (op, a)
        else (op, a)
      let valsA := applyList m values opA.2
      (.boolOp p opA.1 valsA.1, valsA.2)
  | .unaryOp p op operand, a =>
      if fires m p "UnaryOp" then
        if m.replacementOp == "_remove" then (operand, true)
        else
          match opClasses m.replacementOp with
          | some c =>
              let operandA := applyNode m operand true
              (.unaryOp p c operandA.1, operandA.2)
          | Option.none =>
              let operandA := applyNode m operand a
              (.unaryOp p op operandA.1, operandA.2)
      else
        let operandA := applyNode m operand a
        (.unaryOp p op operandA.1, operandA.2)
  | .ifExp p test body orelse, a =>
      let tA := applyNode m test a
      let bA := applyNode m body tA.2
      let oA := applyNode m orelse bA.2
      (.ifExp p tA.1 bA.1 oA.1, oA.2)
  | .constE p v, a => (.constE p v, a)
  | .nameE p id, a => (.nameE p id, a)
  | .call p func args, a =>
      let fA := applyNode m func a
      let argsA := applyList m args fA.2
      (.call p fA.1 argsA.1, argsA.2)
  | .exprStmt p value, a =>
      let vA := applyNode m value a
      (.exprStmt p vA.1, vA.2)
  | .ret p value, a =>
      -- `visit_Return`: `node = self._mutate_return(node)` followed by
      -- `generic_visit(node)`; the recursive visits are computed here and
      -- handed to `retNone` / `retSome`, which select per `_mutate_return`.
      match value with
      | some v =>
          retSome m p a (applyNode m v true) (applyNode m v a)
            (applyOperandOfUnary m v)
      | Option.none => retNone m p a
  | .augAssign p target op value, a =>
      let tA := applyNode m target a
      let vA := applyNode m value tA.2
      (.augAssign p tA.1 op vA.1, vA.2)
  | .breakStmt p, a => (.breakStmt p, a)
  | .continueStmt p, a => (.continueStmt p, a)
  | .forStmt p target iter body, a =>
      let tA := applyNode m target a
      let iA := applyNode m iter tA.2
      let bA := applyList m body iA.2
      (.forStmt p tA.1 iA.1 bA.1, bA.2)
  | .tryStmt p body handlers orelse finalbody, a =>
      let bA := applyList m body a
      let hA := applyList m handlers bA.2
      let oA := applyList m orelse hA.2
      let fA := applyList m finalbody oA.2
      (.tryStmt p bA.1 hA.1 oA.1 fA.1, fA.2)
  | .exceptHandler p typeFilter body, a =>
      let tA := applyOpt m typeFilter a
      let bA := applyList m body tA.2
      (.exceptHandler p tA.1 bA.1, bA.2)
  | .raiseStmt p exc, a =>
      let eA := applyOpt m exc a
      (.raiseStmt p eA.1, eA.2)
  | .funcDef p nm body, a =>
      let bA := applyList m body a
      (.funcDef p nm bA.1, bA.2)
  | .passStmt p, a => (.passStmt p, a)

/-- The recursive visit used by `_mutate_return`'s `remove_negation`
branch: when the return value is a `UnaryOp`, the visit (with the applied
flag set) of its operand. -/
def applyOperandOfUnary (m : Mutant) : PyAST → Option (PyAST × Bool)
  | .unaryOp _ _ operand => some (applyNode m operand true)
  | _ => Option.none

def applyList (m : Mutant) : List PyAST → Bool → List PyAST × Bool
  | [], a => ([], a)
  | n :: ns, a =>
      let nA := applyNode m n a
      let nsA := applyList m ns nA.2
      (nA.1 :: nsA.1, nsA.2)

def applyOpt (m : Mutant) : Option PyAST → Bool → Option PyAST × Bool
  | Option.none, a => (Option.none, a)
  | some n, a =>
      let nA := applyNode m n a
      (some nA.1, nA.2)

end

/-- `import_hook.apply_mutation`: apply a mutation to a parsed module,
returning the transformed tree and the `applied` flag.  The flag starts
`False` and is only ever set `True`. -/
def applyMutation (m : Mutant) (moduleBody : List PyAST) :
    List PyAST × Bool :=
  applyList m moduleBody false

/-- The replacement tags the applier's dispatch recognizes for a node kind:
for `BinOp`/`Compare`/`BoolOp` any name in `_OP_CLASSES`; for `UnaryOp`
additionally the reserved `_remove` sentinel; for `Return` the seven tags
`_mutate_return` branches on; nothing for node kinds without a visit
method. -/
def recognizedFor (kind tag : String) : Bool :=
  if kind == "BinOp" || kind == "Compare" || kind == "BoolOp" then
    (opClasses tag).isSome
  else if kind == "UnaryOp" then
    (tag == "_remove") || (opClasses tag).isSome
  else if kind == "Return" then
    (tag == "False") || (tag == "True") || (tag == "None")
      || (tag == "negate") || (tag == "negate_expr")
      || (tag == "remove_negation") || (tag == "empty_str")
  else false

mutual

/-- Whether some node in the tree sits at `(ln, col)` and has Python node
kind `kind` — the "(line, column, node kind) triple matches a node" notion
of the Mutation Applier's contract.  The per-node check is literally the
`fires` condition of the applier, with `kind` on the mutant's side. -/
def hasKindAt (ln col : Nat) (kind : String) : PyAST → Bool
  | .binOp p _ l r =>
      (((p.lineno == ln) && (p.colOffset == col)) && (kind == "BinOp"))
        || hasKindAt ln col kind l || hasKindAt ln col kind r
  | .compare p left _ comparators =>
      (((p.lineno == ln) && (p.colOffset == col)) && (kind == "Compare"))
        || hasKindAt ln col kind left || hasKindAtList ln col kind comparators
  | .boolOp p _ values =>
      (((p.lineno == ln) && (p.colOffset == col)) && (kind == "BoolOp"))
        || hasKindAtList ln col kind values
  | .unaryOp p _ operand =>
      (((p.lineno == ln) && (p.colOffset == col)) && (kind == "UnaryOp"))
        || hasKindAt ln col kind operand
  | .ifExp p test body orelse =>
      (((p.lineno == ln) && (p.colOffset == col)) && (kind == "IfExp"))
        || hasKindAt ln col kind test || hasKindAt ln col kind body
        || hasKindAt ln col kind orelse
  | .constE p _ =>
      ((p.lineno == ln) && (p.colOffset == col)) && (kind == "Constant")
  | .nameE p _ =>
      ((p.lineno == ln) && (p.colOffset == col)) && (kind == "Name")
  | .call p func args =>
      (((p.lineno == ln) && (p.colOffset == col)) && (kind == "Call"))
        || hasKindAt ln col kind func || hasKindAtList ln col kind args
  | .exprStmt p value =>
      (((p.lineno == ln) && (p.colOffset == col)) && (kind == "Expr"))
        || hasKindAt ln col kind value
  | .ret p value =>
      (((p.lineno == ln) && (p.colOffset == col)) && (kind == "Return"))
        || hasKindAtOpt ln col kind value
  | .augAssign p target _ value =>
      (((p.lineno == ln) && (p.colOffset == col)) && (kind == "AugAssign"))
        || hasKindAt ln col kind target || hasKindAt ln col kind value
  | .breakStmt p =>
      ((p.lineno == ln) && (p.colOffset == col)) && (kind == "Break")
  | .continueStmt p =>
      ((p.lineno == ln) && (p.colOffset == col)) && (kind == "Continue")
  | .forStmt p target iter body =>
      (((p.lineno == ln) && (p.colOffset == col)) && (kind == "For"))
        || hasKindAt ln col kind target || hasKindAt ln col kind iter
        || hasKindAtList ln col kind body
  | .tryStmt p body handlers orelse finalbody =>
      (((p.lineno == ln) && (p.colOffset == col)) && (kind == "Try"))
        || hasKindAtList ln col kind body
        || hasKindAtList ln col kind handlers
        || hasKindAtList ln col kind orelse
        || hasKindAtList ln col kind finalbody
  | .exceptHandler p typeFilter body =>
      (((p.lineno == ln) && (p.colOffset == col)) && (kind == "ExceptHandler"))
        || hasKindAtOpt ln col kind typeFilter
        || hasKindAtList ln col kind body
  | .raiseStmt p exc =>
      (((p.lineno == ln) && (p.colOffset == col)) && (kind == "Raise"))
        || hasKindAtOpt ln col kind exc
  | .funcDef p _ body =>
      (((p.lineno == ln) && (p.colOffset == col)) && (kind == "FunctionDef"))
        || hasKindAtList ln col kind body
  | .passStmt p =>
      ((p.lineno == ln) && (p.colOffset == col)) && (kind == "Pass")

def hasKindAtList (ln col : Nat) (kind : String) : List PyAST → Bool
  | [] => false
  | n :: ns => hasKindAt ln col kind n || hasKindAtList ln col kind ns

def hasKindAtOpt (ln col : Nat) (kind : String) : Option PyAST → Bool
  | Option.none => false
  | some n => hasKindAt ln col kind n

end

/-! ## models.py — results data model -/

/-- `models.CoverageMap`: maps source lines to the tests that execute them.
The dict is an association list with pairwise-distinct keys; the per-key
`set` of test identifiers is carried in the order `sorted` produces when the
engine reads it. -/
structure CoverageMap where
  lineToTests : List ((String × Nat) × List String)
deriving DecidableEq, Repr

/-- `CoverageMap.tests_for`: `self.line_to_tests.get((file_path, lineno),
set())`. -/
def CoverageMap.testsFor (cm : CoverageMap) (fp : String) (ln : Nat) :
    List String :=
  match cm.lineToTests.find? (fun e => e.fst == (fp, ln)) with
  | some e => e.snd
  | Option.none => []

/-- `models.MutantResult`: result of testing a single mutant.  Elapsed wall
time is an exact rational stand-in for the float duration; no arithmetic is
performed on it. -/
structure MutantResult where
  mutant : Mutant
  killed : Bool
  testsRun : Nat
  killingTest : Option String
  timeSeconds : Rat
  testIdsRun : List String
  killingTests : List String
deriving DecidableEq, Repr

/-- `models.RunResult`: complete result of a mutation testing run.  The
dataclass places no constraint linking `mutants_tested` to `results`;
Python ints are unbounded and `count_pruned` can be negative, so the counts
are `Int`. -/
structure RunResult where
  targetFiles : List String
  totalMutants : Int
  mutantsTested : Int
  mutantsPruned : Int
  results : List MutantResult
  wallTimeSeconds : Rat
  coverageMap : Option CoverageMap
  targetSources : List (String × String)
deriving DecidableEq, Repr

/-- `RunResult.killed` property: `sum(1 for r in self.results if r.killed)`. -/
def RunResult.killedCount (rr : RunResult) : Nat :=
  (rr.results.filter (fun r => r.killed)).length

/-- `RunResult.survived` property. -/
def RunResult.survived (rr : RunResult) : List MutantResult :=
  rr.results.filter (fun r => !r.killed)

/-- `RunResult.mutation_score` property: `0.0` when `mutants_tested == 0`,
else `killed / mutants_tested * 100.0`.  The division is modelled exactly
over `Rat`; the guard is checked before any division is performed, which is
the embedding of "never a division fault". -/
def RunResult.mutationScore (rr : RunResult) : Rat :=
  if rr.mutantsTested = 0 then 0
  else ((rr.killedCount : Rat) / (rr.mutantsTested : Rat)) * 100

/-! ## runner.py — per-mutant execution -/

/-- `runner._ResultCollector`: the pytest plugin state after a run — node
ids of passed/failed "call"-phase reports, setup/teardown "errors", and the
count of "call"-phase reports. -/
structure ResultCollector where
  passed : List String
  failed : List String
  errors : List String
  total : Nat
deriving DecidableEq, Repr

/-- The observable outcome of the `pytest.main(args, plugins=[collector])`
collaborator invocation inside `run_tests_for_mutant`: either it returns
normally leaving the collector in some final state, or an `Exception`
escapes it with the collector in whatever partial state it had reached.
(The surrounding hook install/eviction/snapshot/restore steps manipulate
process-global interpreter state and are not modelled; they do not affect
the returned `MutantResult`.) -/
inductive PytestOutcome where
  | raised (col : ResultCollector)
  | finished (c : ResultCollector)
deriving DecidableEq, Repr

/-- `runner.run_tests_for_mutant`, parametrized by the pytest invocation's
outcome and by the measured elapsed time.  The function is total: when the
inner invocation raises, the exception is consumed by the
`except Exception` handler and a `MutantResult` with the `"<crashed>"`
sentinel is returned instead of propagating. -/
def runTestsForMutant (mutant : Mutant) (outcome : PytestOutcome)
    (elapsed : Rat) : MutantResult :=
  match outcome with
  | .raised col =>
      { mutant := mutant
        killed := true
        testsRun := col.total
        killingTest := some "<crashed>"
        timeSeconds := elapsed
        testIdsRun := []
        killingTests := ["<crashed>"] }
  | .finished col =>
      let killed := decide (0 < col.failed.length) || decide (0 < col.errors.length)
      let killingTest : Option String :=
        match col.failed with
        | t :: _ => some t
        | [] =>
            match col.errors with
            | t :: _ => some t
            | [] => Option.none
      { mutant := mutant
        killed := killed
        testsRun := col.total
        killingTest := killingTest
        timeSeconds := elapsed
        testIdsRun := col.passed ++ col.failed ++ col.errors
        killingTests := col.failed ++ col.errors }

/-! ## engine.py — the orchestrator -/

/-- One target file as the engine sees it after the out-of-scope steps
(reading the file, `_module_name_from_path`, `ast.parse`): absolute path,
canonical module name, source text and parsed module body. -/
structure TargetFile where
  filePath : String
  moduleName : String
  source : String
  tree : List PyAST
deriving Repr

/-- The inner loop of `Engine.run`'s mutant generation: expand one file's
enriched points against the registry, numbering mutants consecutively from
`nextId`. -/
def mkMutants (pt : MutationPoint) (reps : List String) (nextId : Nat) :
    List Mutant :=
  match reps with
  | [] => []
  | r :: rs => ⟨pt, r, nextId⟩ :: mkMutants pt rs (nextId + 1)

/-- `for point in points: for replacement_op in mutations_for(point, ...)`,
threading the global `mutant_id` counter. -/
def expandPoints (useTypes : Bool) : List MutationPoint → Nat → List Mutant
  | [], _ => []
  | pt :: rest, nextId =>
      let reps := mutationsFor pt useTypes
      mkMutants pt reps nextId
        ++ expandPoints useTypes rest (nextId + reps.length)

/-- The per-target-file loop of `Engine.run` (steps 1–4): scan, enrich,
tally pruned, generate mutants.  The Type Enricher
(`type_extractor.enrich_mutation_points`) is a separate component consumed
here through the parameter `enrich`; every theorem about the engine holds
for an arbitrary enrichment.  Returns the concatenated mutants and the
summed (possibly negative) pruned count. -/
def engineExpand (useTypes : Bool)
    (enrich : List PyAST → List MutationPoint → List MutationPoint) :
    List TargetFile → Nat → List Mutant × Int
  | [], _ => ([], 0)
  | tf :: rest, nextId =>
      let points :=
        enrich tf.tree (findMutationPoints tf.filePath tf.moduleName tf.tree)
      let filePruned := countPruned points useTypes
      let fileMutants := expandPoints useTypes points nextId
      let restR := engineExpand useTypes enrich rest (nextId + fileMutants.length)
      (fileMutants ++ restR.1, filePruned + restR.2)

/-- The `target_sources` dict `Engine.run` accumulates in its per-file loop
(`target_sources[module_name] = source`). -/
def engineCollectedSources (targets : List TargetFile) :
    List (String × String) :=
  targets.map (fun tf => (tf.moduleName, tf.source))

/-- Step 7 of `Engine.run`: `coverage_map = collect_coverage(...) if
self.use_coverage else None`, with the Coverage Tracker's output consumed as
the parameter `cov`. -/
def engineCoverage (useCoverage : Bool) (cov : CoverageMap) :
    Option CoverageMap :=
  if useCoverage then some cov else Option.none

/-- Step 8 of `Engine.run`: iterate the mutant list; before each mutant
check the memory limit and break (stop entirely, not skip) when a limit is
configured and `is_memory_ok` fails; select this mutant's tests from the
coverage map when it covers the mutant's (file, line), else fall back to the
session-wide test ids; invoke the runner.  `is_memory_ok` and
`run_tests_for_mutant` are consumed through the parameters `memOk` (indexed
by iteration) and `runOne`. -/
def engineLoop (limitsPresent : Bool) (memOk : Nat → Bool)
    (coverageMap : Option CoverageMap) (testNodeIds : Option (List String))
    (runOne : Mutant → Option (List String) → MutantResult) :
    List Mutant → Nat → List MutantResult
  | [], _ => []
  | mu :: rest, i =>
      if limitsPresent && !(memOk i) then []
      else
        let covIds : Option (List String) :=
          match coverageMap with
          | some cm =>
              let covered := cm.testsFor mu.point.filePath mu.point.lineno
              if covered.isEmpty then Option.none else some covered
          | Option.none => Option.none
        let testIds : Option (List String) :=
          match covIds, testNodeIds with
          | Option.none, some ids => some ids
          | x, _ => x
        runOne mu testIds
          :: engineLoop limitsPresent memOk coverageMap testNodeIds runOne
              rest (i + 1)

/-- `Engine.run`: the full orchestration, with the external collaborators
(file reading+parsing, type enricher, coverage tracker, git diff, resource
governor, per-mutant runner, monotonic clock) consumed as parameters.
Mirrors `engine.py` lines 98–199: expand mutants per file, compute
`total_mutants = len(all_mutants) + total_pruned`, optionally filter by
diff, optionally collect coverage, run the loop, and assemble the
`RunResult` — whose constructor call in the source passes neither
`coverage_map` nor `target_sources`, leaving the dataclass defaults. -/
def engineRun (useTypes useCoverage : Bool) (targets : List TargetFile)
    (enrich : List PyAST → List MutationPoint → List MutationPoint)
    (cov : CoverageMap) (diffLines : Option (List (String × List Nat)))
    (limitsPresent : Bool) (memOk : Nat → Bool)
    (testNodeIds : Option (List String))
    (runOne : Mutant → Option (List String) → MutantResult)
    (wallTime : Rat) : RunResult :=
  let expanded := engineExpand useTypes enrich targets 0
  let totalMutants : Int := (expanded.1.length : Int) + expanded.2
  let mutants :=
    match diffLines with
    | some dl =>
        expanded.1.filter (fun mu =>
          match dl.find? (fun e => e.fst == mu.point.filePath) with
          | some e => e.snd.contains mu.point.lineno
          | Option.none => false)
    | Option.none => expanded.1
  let coverageMap := engineCoverage useCoverage cov
  let results :=
    engineLoop limitsPresent memOk coverageMap testNodeIds runOne mutants 0
  { targetFiles := targets.map (fun tf => tf.filePath)
    totalMutants := totalMutants
    mutantsTested := (results.length : Int)
    mutantsPruned := expanded.2
    results := results
    wallTimeSeconds := wallTime
    coverageMap := Option.none
    targetSources := [] }

/-! ## General lemmas -/

theorem collectList_append (fp mn : String) (xs ys : List PyAST) :
    collectList fp mn (xs ++ ys)
      = collectList fp mn xs ++ collectList fp mn ys := by
  induction xs with
  | nil => simp [collectList]
  | cons n ns ih => simp [collectList, ih]

theorem foldl_add_sum (f : MutationPoint → Int) (l : List MutationPoint) :
    ∀ acc : Int, List.foldl (fun a p => a + f p) acc l = acc + (l.map f).sum := by
  induction l with
  | nil => simp
  | cons p ps ih => intro acc; simp [List.foldl, ih]; ring

/-! ## Claim theorems -/

/-- C4: `count_pruned(points, use_types=True)` equals the sum over all
points of `len(untyped mutations) − len(typed mutations)` (an `Int`, and it
can be negative: a `BinOp Add` point typed as `int` contributes
`2 − 3 = −1`); and `Engine.run` computes the total candidate mutant count
as `len(all_mutants) + total_pruned` — by addition, never subtraction, for
every enrichment and every collaborator behaviour. -/
theorem count_pruned_arithmetic :
    (∀ points : List MutationPoint,
      countPruned points true =
        (points.map (fun p =>
          ((mutationsFor p false).length : Int)
            - ((mutationsFor p true).length : Int))).sum)
    ∧ countPruned [⟨"calc.py", "calc", 1, 0, "BinOp", "Add", some "int"⟩] true
        = -1
    ∧ (∀ (useTypes useCoverage : Bool) (targets : List TargetFile)
        (enrich : List PyAST → List MutationPoint → List MutationPoint)
        (cov : CoverageMap) (diffLines : Option (List (String × List Nat)))
        (limitsPresent : Bool) (memOk : Nat → Bool)
        (testNodeIds : Option (List String))
        (runOne : Mutant → Option (List String) → MutantResult)
        (wallTime : Rat),
        (engineRun useTypes useCoverage targets enrich cov diffLines
            limitsPresent memOk testNodeIds runOne wallTime).totalMutants =
          ((engineExpand useTypes enrich targets 0).1.length : Int)
            + (engineExpand useTypes enrich targets 0).2) := by
  refine ⟨fun points => ?_, by rfl, fun _ _ _ _ _ _ _ _ _ _ _ => rfl⟩
  simp [countPruned, foldl_add_sum]

/-- C6: the scanner classifies `except Exception: print(...)` as
`typed_broadest`, `except Exception: raise` as no point at all,
`except ValueError: raise` as `typed_raise_body`, `except: print(...)` as
`bare`, and a typed handler with a non-trivial body
(`except ValueError: print(...)`) as `typed`. -/
theorem except_handler_classification :
    findMutationPoints "t.py" "t"
      [.tryStmt ⟨1, 0⟩ [.passStmt ⟨2, 4⟩]
        [.exceptHandler ⟨3, 0⟩ (some (.nameE ⟨3, 7⟩ "Exception"))
          [.exprStmt ⟨4, 4⟩ (.call ⟨4, 4⟩ (.nameE ⟨4, 4⟩ "print")
            [.constE ⟨4, 10⟩ (.strC "x")])]] [] []]
      = [⟨"t.py", "t", 3, 0, "ExceptHandler", "typed_broadest", Option.none⟩]
    ∧ findMutationPoints "t.py" "t"
      [.tryStmt ⟨1, 0⟩ [.passStmt ⟨2, 4⟩]
        [.exceptHandler ⟨3, 0⟩ (some (.nameE ⟨3, 7⟩ "Exception"))
          [.raiseStmt ⟨4, 4⟩ Option.none]] [] []]
      = []
    ∧ findMutationPoints "t.py" "t"
      [.tryStmt ⟨1, 0⟩ [.passStmt ⟨2, 4⟩]
        [.exceptHandler ⟨3, 0⟩ (some (.nameE ⟨3, 7⟩ "ValueError"))
          [.raiseStmt ⟨4, 4⟩ Option.none]] [] []]
      = [⟨"t.py", "t", 3, 0, "ExceptHandler", "typed_raise_body", Option.none⟩]
    ∧ findMutationPoints "t.py" "t"
      [.tryStmt ⟨1, 0⟩ [.passStmt ⟨2, 4⟩]
        [.exceptHandler ⟨3, 0⟩ Option.none
          [.exprStmt ⟨4, 4⟩ (.call ⟨4, 4⟩ (.nameE ⟨4, 4⟩ "print")
            [.constE ⟨4, 10⟩ (.strC "x")])]] [] []]
      = [⟨"t.py", "t", 3, 0, "ExceptHandler", "bare", Option.none⟩]
    ∧ findMutationPoints "t.py" "t"
      [.tryStmt ⟨1, 0⟩ [.passStmt ⟨2, 4⟩]
        [.exceptHandler ⟨3, 0⟩ (some (.nameE ⟨3, 7⟩ "ValueError"))
          [.exprStmt ⟨4, 4⟩ (.call ⟨4, 4⟩ (.nameE ⟨4, 4⟩ "print")
            [.constE ⟨4, 10⟩ (.strC "x")])]] [] []]
      = [⟨"t.py", "t", 3, 0, "ExceptHandler", "typed", Option.none⟩] :=
  ⟨rfl, rfl, rfl, rfl, rfl⟩

/-- C7: when the pytest invocation raises instead of reporting per-test
results, `run_tests_for_mutant` returns (rather than propagating) a
`MutantResult` with `killed=True` and the `"<crashed>"` sentinel as the
killing test — for every mutant, every partial collector state and every
elapsed time.  Totality of `runTestsForMutant` is the embedding of "the
exception is not propagated further". -/
theorem harness_crash_counts_as_kill (m : Mutant) (col : ResultCollector)
    (t : Rat) :
    (runTestsForMutant m (.raised col) t).killed = true
    ∧ (runTestsForMutant m (.raised col) t).killingTest = some "<crashed>"
    ∧ (runTestsForMutant m (.raised col) t).killingTests = ["<crashed>"] :=
  ⟨rfl, rfl, rfl⟩

/-- C10: a bare exception handler (no type filter) whose body is exactly one
bare `raise` yields no mutation point — neither from the handler itself nor
from a whole module containing it — at every source position. -/
theorem bare_handler_bare_raise_yields_no_point (fp mn : String)
    (hp rp tp pp : Loc) :
    collectNode fp mn
      (.exceptHandler hp Option.none [.raiseStmt rp Option.none]) = []
    ∧ findMutationPoints fp mn
      [.tryStmt tp [.passStmt pp]
        [.exceptHandler hp Option.none [.raiseStmt rp Option.none]] [] []]
      = [] :=
  ⟨rfl, rfl⟩

/-- C2 (failing-input evaluation): the Operator Registry produces mutants
for `AugAssign`, `IfExp` (ternary), `Break`, `ExceptHandler` and bitwise
`BinOp` points, but `MutantApplier` — which has visit methods only for
`BinOp`, `Compare`, `BoolOp`, `UnaryOp` and `Return`, and whose
`_OP_CLASSES` table lacks the bitwise/shift operator names — leaves the
tree unmodified with `applied=False` for each of them, contradicting the
claimed one-to-one transformation catalog (and the repository's own
`describe_import_hook` tests). -/
theorem applier_missing_registry_kinds :
    (mutationsFor ⟨"t.py", "t", 1, 0, "AugAssign", "Add", Option.none⟩ true
        = ["Sub", "Mult"]
      ∧ applyMutation ⟨⟨"t.py", "t", 1, 0, "AugAssign", "Add", Option.none⟩, "Sub", 0⟩
          [.augAssign ⟨1, 0⟩ (.nameE ⟨1, 0⟩ "x") .add (.nameE ⟨1, 5⟩ "y")]
        = ([.augAssign ⟨1, 0⟩ (.nameE ⟨1, 0⟩ "x") .add (.nameE ⟨1, 5⟩ "y")], false))
    ∧ (mutationsFor ⟨"t.py", "t", 1, 0, "IfExp", "ternary", Option.none⟩ true
        = ["swap_branches", "always_true", "always_false"]
      ∧ applyMutation ⟨⟨"t.py", "t", 1, 0, "IfExp", "ternary", Option.none⟩, "swap_branches", 0⟩
          [.exprStmt ⟨1, 0⟩ (.ifExp ⟨1, 0⟩ (.nameE ⟨1, 5⟩ "c") (.nameE ⟨1, 0⟩ "x")
            (.nameE ⟨1, 12⟩ "y"))]
        = ([.exprStmt ⟨1, 0⟩ (.ifExp ⟨1, 0⟩ (.nameE ⟨1, 5⟩ "c") (.nameE ⟨1, 0⟩ "x")
            (.nameE ⟨1, 12⟩ "y"))], false))
    ∧ (mutationsFor ⟨"t.py", "t", 2, 4, "Break", "break", Option.none⟩ true
        = ["continue"]
      ∧ applyMutation ⟨⟨"t.py", "t", 2, 4, "Break", "break", Option.none⟩, "continue", 0⟩
          [.forStmt ⟨1, 0⟩ (.nameE ⟨1, 4⟩ "i") (.nameE ⟨1, 9⟩ "r") [.breakStmt ⟨2, 4⟩]]
        = ([.forStmt ⟨1, 0⟩ (.nameE ⟨1, 4⟩ "i") (.nameE ⟨1, 9⟩ "r") [.breakStmt ⟨2, 4⟩]], false))
    ∧ (mutationsFor ⟨"t.py", "t", 3, 0, "ExceptHandler", "typed", Option.none⟩ true
        = ["broaden", "body_to_raise"]
      ∧ applyMutation ⟨⟨"t.py", "t", 3, 0, "ExceptHandler", "typed", Option.none⟩, "broaden", 0⟩
          [.tryStmt ⟨1, 0⟩ [.passStmt ⟨2, 4⟩]
            [.exceptHandler ⟨3, 0⟩ (some (.nameE ⟨3, 7⟩ "ValueError")) [.passStmt ⟨4, 4⟩]]
            [] []]
        = ([.tryStmt ⟨1, 0⟩ [.passStmt ⟨2, 4⟩]
            [.exceptHandler ⟨3, 0⟩ (some (.nameE ⟨3, 7⟩ "ValueError")) [.passStmt ⟨4, 4⟩]]
            [] []], false))
    ∧ (mutationsFor ⟨"t.py", "t", 1, 0, "BinOp", "BitAnd", Option.none⟩ true
        = ["BitOr", "BitXor"]
      ∧ applyMutation ⟨⟨"t.py", "t", 1, 0, "BinOp", "BitAnd", Option.none⟩, "BitOr", 0⟩
          [.exprStmt ⟨1, 0⟩ (.binOp ⟨1, 0⟩ .bitAnd (.nameE ⟨1, 0⟩ "x") (.nameE ⟨1, 4⟩ "y"))]
        = ([.exprStmt ⟨1, 0⟩ (.binOp ⟨1, 0⟩ .bitAnd (.nameE ⟨1, 0⟩ "x") (.nameE ⟨1, 4⟩ "y"))],
            false)) :=
  ⟨⟨rfl, rfl⟩, ⟨rfl, rfl⟩, ⟨rfl, rfl⟩, ⟨rfl, rfl⟩, ⟨rfl, rfl⟩⟩

/-- C3 (counterexample): the chained comparison `a < b < c` makes
`find_mutation_points` emit two `MutationPoint`s with identical
(file path, line, column, node kind) triples — both at the chain's
location — so the claimed uniqueness invariant fails. -/
theorem compare_chain_duplicate_triples :
    findMutationPoints "f.py" "m"
      [.exprStmt ⟨1, 0⟩ (.compare ⟨1, 0⟩ (.nameE ⟨1, 0⟩ "a") [.lt, .lt]
        [.nameE ⟨1, 4⟩ "b", .nameE ⟨1, 8⟩ "c"])]
      = [⟨"f.py", "m", 1, 0, "Compare", "Lt", Option.none⟩,
         ⟨"f.py", "m", 1, 0, "Compare", "Lt", Option.none⟩]
    ∧ ¬ List.Pairwise (fun a b : MutationPoint =>
          (a.filePath, a.lineno, a.colOffset, a.nodeType)
            ≠ (b.filePath, b.lineno, b.colOffset, b.nodeType))
        (findMutationPoints "f.py" "m"
          [.exprStmt ⟨1, 0⟩ (.compare ⟨1, 0⟩ (.nameE ⟨1, 0⟩ "a") [.lt, .lt]
            [.nameE ⟨1, 4⟩ "b", .nameE ⟨1, 8⟩ "c"])]) := by
  refine ⟨rfl, ?_⟩
  intro h
  rw [show findMutationPoints "f.py" "m"
      [.exprStmt ⟨1, 0⟩ (.compare ⟨1, 0⟩ (.nameE ⟨1, 0⟩ "a") [.lt, .lt]
        [.nameE ⟨1, 4⟩ "b", .nameE ⟨1, 8⟩ "c"])]
      = [⟨"f.py", "m", 1, 0, "Compare", "Lt", Option.none⟩,
         ⟨"f.py", "m", 1, 0, "Compare", "Lt", Option.none⟩] from rfl] at h
  exact (List.pairwise_cons.mp h).1 _ (List.mem_singleton.mpr rfl) rfl

/-- C9 (failing-input evaluation): for every invocation with coverage
enabled and at least one target file, `Engine.run` computes the coverage
map (`engineCoverage true cov = some cov`) and accumulates a per-file
source snapshot (`engineCollectedSources`), yet the `RunResult` it
constructs carries `coverage_map = None` and an empty `target_sources` —
the constructor call omits both fields, leaving the dataclass defaults. -/
theorem engine_drops_coverage_and_sources (useTypes : Bool)
    (tf : TargetFile) (rest : List TargetFile)
    (enrich : List PyAST → List MutationPoint → List MutationPoint)
    (cov : CoverageMap) (diffLines : Option (List (String × List Nat)))
    (limitsPresent : Bool) (memOk : Nat → Bool)
    (testNodeIds : Option (List String))
    (runOne : Mutant → Option (List String) → MutantResult)
    (wallTime : Rat) :
    (engineRun useTypes true (tf :: rest) enrich cov diffLines limitsPresent
        memOk testNodeIds runOne wallTime).coverageMap = Option.none
    ∧ (engineRun useTypes true (tf :: rest) enrich cov diffLines limitsPresent
        memOk testNodeIds runOne wallTime).targetSources = []
    ∧ engineCoverage true cov = some cov
    ∧ engineCollectedSources (tf :: rest)
        = (tf.moduleName, tf.source) :: engineCollectedSources rest :=
  ⟨rfl, rfl, rfl, rfl⟩

/-! ## Registry lookup lemmas for return-value classifications -/

theorem typedFind_zero_int (t : String) :
    typedFind "Return" "zero_int_literal" t = Option.none := by
  simp [typedFind, TYPED_MUTATIONS, List.find?]

theorem typedFind_zero_float (t : String) :
    typedFind "Return" "zero_float_literal" t = Option.none := by
  simp [typedFind, TYPED_MUTATIONS, List.find?]

theorem typedFind_int_literal (t : String) :
    typedFind "Return" "int_literal" t
      = if t = "int" then some ["negate"] else Option.none := by
  by_cases ht : t = "int"
  · subst ht; rfl
  · have h : ("int" == t) = false := by simp [Ne.symm ht]
    simp [typedFind, TYPED_MUTATIONS, List.find?, h, ht]

theorem typedFind_float_literal (t : String) :
    typedFind "Return" "float_literal" t
      = if t = "float" then some ["negate"] else Option.none := by
  by_cases ht : t = "float"
  · subst ht; rfl
  · have h : ("float" == t) = false := by simp [Ne.symm ht]
    simp [typedFind, TYPED_MUTATIONS, List.find?, h, ht]

theorem mutationsFor_zero_int (fp mn : String) (ln col : Nat)
    (ty : Option String) (useTypes : Bool) :
    mutationsFor ⟨fp, mn, ln, col, "Return", "zero_int_literal", ty⟩ useTypes
      = [] := by
  cases useTypes with
  | false => rfl
  | true =>
      cases ty with
      | none => rfl
      | some t =>
          by_cases ht : (t == "") = true
          · simp [mutationsFor, ht]; rfl
          · simp only [mutationsFor, ht, if_false, Bool.not_eq_true,
              typedFind_zero_int]
            rfl

theorem mutationsFor_zero_float (fp mn : String) (ln col : Nat)
    (ty : Option String) (useTypes : Bool) :
    mutationsFor ⟨fp, mn, ln, col, "Return", "zero_float_literal", ty⟩ useTypes
      = [] := by
  cases useTypes with
  | false => rfl
  | true =>
      cases ty with
      | none => rfl
      | some t =>
          by_cases ht : (t == "") = true
          · simp [mutationsFor, ht]; rfl
          · simp only [mutationsFor, ht, if_false, Bool.not_eq_true,
              typedFind_zero_float]
            rfl

theorem mutationsFor_int_literal (fp mn : String) (ln col : Nat)
    (ty : Option String) (useTypes : Bool) :
    mutationsFor ⟨fp, mn, ln, col, "Return", "int_literal", ty⟩ useTypes
      = ["negate"] := by
  cases useTypes with
  | false => rfl
  | true =>
      cases ty with
      | none => rfl
      | some t =>
          by_cases ht : (t == "") = true
          · simp [mutationsFor, ht]; rfl
          · simp only [mutationsFor, ht, if_false, Bool.not_eq_true,
              typedFind_int_literal]
            by_cases hi : t = "int" <;> simp [hi] <;> rfl

theorem mutationsFor_float_literal (fp mn : String) (ln col : Nat)
    (ty : Option String) (useTypes : Bool) :
    mutationsFor ⟨fp, mn, ln, col, "Return", "float_literal", ty⟩ useTypes
      = ["negate"] := by
  cases useTypes with
  | false => rfl
  | true =>
      cases ty with
      | none => rfl
      | some t =>
          by_cases ht : (t == "") = true
          · simp [mutationsFor, ht]; rfl
          · simp only [mutationsFor, ht, if_false, Bool.not_eq_true,
              typedFind_float_literal]
            by_cases hi : t = "float" <;> simp [hi] <;> rfl

/-- C5: for every return statement returning an integer or float zero
literal — wherever it sits in the module and whatever inferred type the
enricher may later attach — the registry's mutation list for the scanner's
point is empty; for every nonzero integer or float literal it is exactly
`["negate"]`, hence non-empty.  The first conjunct ties the point to
`find_mutation_points`: a return of a constant contributes exactly one
point, tagged by `_classify_return_value`. -/
theorem zero_negation_pruning (useTypes : Bool) (ty : Option String)
    (fp mn : String) (p q : Loc) (pre post : List PyAST) (c : ConstVal)
    (n : Int) (x : Rat) (hn : n ≠ 0) (hx : x ≠ 0) :
    findMutationPoints fp mn (pre ++ .ret p (some (.constE q c)) :: post)
      = findMutationPoints fp mn pre
        ++ ⟨fp, mn, p.lineno, p.colOffset, "Return",
              classifyReturnValue (.constE q c), Option.none⟩
          :: findMutationPoints fp mn post
    ∧ classifyReturnValue (.constE q (.intC 0)) = "zero_int_literal"
    ∧ classifyReturnValue (.constE q (.floatC 0)) = "zero_float_literal"
    ∧ classifyReturnValue (.constE q (.intC n)) = "int_literal"
    ∧ classifyReturnValue (.constE q (.floatC x)) = "float_literal"
    ∧ mutationsFor ⟨fp, mn, p.lineno, p.colOffset, "Return",
        classifyReturnValue (.constE q (.intC 0)), ty⟩ useTypes = []
    ∧ mutationsFor ⟨fp, mn, p.lineno, p.colOffset, "Return",
        classifyReturnValue (.constE q (.floatC 0)), ty⟩ useTypes = []
    ∧ mutationsFor ⟨fp, mn, p.lineno, p.colOffset, "Return",
        classifyReturnValue (.constE q (.intC n)), ty⟩ useTypes = ["negate"]
    ∧ mutationsFor ⟨fp, mn, p.lineno, p.colOffset, "Return",
        classifyReturnValue (.constE q (.floatC x)), ty⟩ useTypes
        = ["negate"] := by
  have hci : classifyReturnValue (.constE q (.intC n)) = "int_literal" := by
    simp [classifyReturnValue, hn]
  have hcx : classifyReturnValue (.constE q (.floatC x)) = "float_literal" := by
    simp [classifyReturnValue, hx]
  refine ⟨?_, rfl, rfl, hci, hcx, ?_, ?_, ?_, ?_⟩
  · simp [findMutationPoints, collectList_append, collectList, collectNode]
  · exact mutationsFor_zero_int fp mn p.lineno p.colOffset ty useTypes
  · exact mutationsFor_zero_float fp mn p.lineno p.colOffset ty useTypes
  · rw [hci]
    exact mutationsFor_int_literal fp mn p.lineno p.colOffset ty useTypes
  · rw [hcx]
    exact mutationsFor_float_literal fp mn p.lineno p.colOffset ty useTypes

/-- C5 witness: the theorem instantiated at a module returning the literal
`5` preceded by a function definition, with `n = 5`, `x = 5/2`, inferred
type `bool` and typed lookup enabled. -/
theorem zero_negation_pruning_witness :
    (5 : Int) ≠ 0 ∧ (5 / 2 : Rat) ≠ 0
    ∧ (findMutationPoints "f.py" "m"
        ([.funcDef ⟨1, 0⟩ "f" [.passStmt ⟨1, 9⟩]]
          ++ .ret ⟨2, 0⟩ (some (.constE ⟨2, 7⟩ (.intC 5))) :: [])
        = findMutationPoints "f.py" "m" [.funcDef ⟨1, 0⟩ "f" [.passStmt ⟨1, 9⟩]]
          ++ ⟨"f.py", "m", 2, 0, "Return",
                classifyReturnValue (.constE ⟨2, 7⟩ (.intC 5)), Option.none⟩
            :: findMutationPoints "f.py" "m" []
      ∧ classifyReturnValue (.constE ⟨2, 7⟩ (.intC 0)) = "zero_int_literal"
      ∧ classifyReturnValue (.constE ⟨2, 7⟩ (.floatC 0)) = "zero_float_literal"
      ∧ classifyReturnValue (.constE ⟨2, 7⟩ (.intC 5)) = "int_literal"
      ∧ classifyReturnValue (.constE ⟨2, 7⟩ (.floatC (5 / 2))) = "float_literal"
      ∧ mutationsFor ⟨"f.py", "m", 2, 0, "Return",
          classifyReturnValue (.constE ⟨2, 7⟩ (.intC 0)), some "bool"⟩ true = []
      ∧ mutationsFor ⟨"f.py", "m", 2, 0, "Return",
          classifyReturnValue (.constE ⟨2, 7⟩ (.floatC 0)), some "bool"⟩ true = []
      ∧ mutationsFor ⟨"f.py", "m", 2, 0, "Return",
          classifyReturnValue (.constE ⟨2, 7⟩ (.intC 5)), some "bool"⟩ true
          = ["negate"]
      ∧ mutationsFor ⟨"f.py", "m", 2, 0, "Return",
          classifyReturnValue (.constE ⟨2, 7⟩ (.floatC (5 / 2))), some "bool"⟩ true
          = ["negate"]) :=
  ⟨by norm_num, by norm_num,
    zero_negation_pruning true (some "bool") "f.py" "m" ⟨2, 0⟩ ⟨2, 7⟩
      [.funcDef ⟨1, 0⟩ "f" [.passStmt ⟨1, 9⟩]] [] (.intC 5) 5 (5 / 2)
      (by norm_num) (by norm_num)⟩

/-- A concrete killed `MutantResult`, input data for the mutation-score
analysis. -/
def killedResult : MutantResult :=
  ⟨⟨⟨"f.py", "m", 1, 0, "BinOp", "Add", Option.none⟩, "Sub", 0⟩, true, 1,
    some "t::one", 0, ["t::one"], ["t::one"]⟩

/-- C8 (counterexample): `RunResult` places no constraint linking
`mutants_tested` to `results`, and `mutation_score` divides the killed
count of `results` by the free-standing `mutants_tested` field: a
`RunResult` with `mutants_tested = 1` and two killed results scores 200,
violating the claimed `mutation_score ≤ 100` for every RunResult. -/
theorem mutation_score_exceeds_bound :
    RunResult.mutationScore
      ⟨[], 2, 1, 0, [killedResult, killedResult], 0, Option.none, []⟩ = 200
    ∧ ¬ (RunResult.mutationScore
      ⟨[], 2, 1, 0, [killedResult, killedResult], 0, Option.none, []⟩ ≤ 100) := by
  have h : RunResult.mutationScore
      ⟨[], 2, 1, 0, [killedResult, killedResult], 0, Option.none, []⟩ = 200 := by
    norm_num [RunResult.mutationScore, RunResult.killedCount, killedResult]
  exact ⟨h, by rw [h]; norm_num⟩

/-- C8 (amended): for every `RunResult` whose `mutants_tested` equals the
length of its `results` list — as holds for every `RunResult` that
`Engine.run` constructs — the mutation score lies in `[0, 100]`; and
whenever `mutants_tested = 0` the score is exactly `0`, the zero-guard
being checked before any division is performed. -/
theorem mutation_score_bounds (rr : RunResult)
    (h : rr.mutantsTested = (rr.results.length : Int)) :
    0 ≤ rr.mutationScore ∧ rr.mutationScore ≤ 100
    ∧ (rr.mutantsTested = 0 → rr.mutationScore = 0) := by
  unfold RunResult.mutationScore
  by_cases h0 : rr.mutantsTested = 0
  · simp [h0]
  · have hk : rr.killedCount ≤ rr.results.length :=
      List.length_filter_le _ _
    have hpos : (0 : Int) < rr.mutantsTested := by
      rcases lt_or_eq_of_le (h ▸ Int.ofNat_nonneg rr.results.length :
        (0 : Int) ≤ rr.mutantsTested) with hlt | heq
      · exact hlt
      · exact absurd heq.symm h0
    have hposQ : (0 : Rat) < (rr.mutantsTested : Rat) := by
      exact_mod_cast hpos
    have hkQ : (rr.killedCount : Rat) ≤ (rr.mutantsTested : Rat) := by
      rw [h]
      exact_mod_cast hk
    refine ⟨?_, ?_, fun hz => absurd hz h0⟩
    · simp only [h0, if_false]
      positivity
    · simp only [h0, if_false]
      have hdiv : (rr.killedCount : Rat) / (rr.mutantsTested : Rat) ≤ 1 :=
        (div_le_one hposQ).mpr hkQ
      calc (rr.killedCount : Rat) / (rr.mutantsTested : Rat) * 100
          ≤ 1 * 100 := by
            exact mul_le_mul_of_nonneg_right hdiv (by norm_num)
        _ = 100 := by norm_num

/-- C8 witness: the bounds theorem applied to a concrete engine-shaped
`RunResult` (one tested, one killed result). -/
theorem mutation_score_bounds_witness :
    (RunResult.mutantsTested ⟨[], 1, 1, 0, [killedResult], 0, Option.none, []⟩
      = ((RunResult.results ⟨[], 1, 1, 0, [killedResult], 0, Option.none, []⟩).length : Int))
    ∧ (0 ≤ RunResult.mutationScore ⟨[], 1, 1, 0, [killedResult], 0, Option.none, []⟩
      ∧ RunResult.mutationScore ⟨[], 1, 1, 0, [killedResult], 0, Option.none, []⟩ ≤ 100
      ∧ (RunResult.mutantsTested ⟨[], 1, 1, 0, [killedResult], 0, Option.none, []⟩ = 0 →
          RunResult.mutationScore ⟨[], 1, 1, 0, [killedResult], 0, Option.none, []⟩ = 0)) :=
  ⟨rfl, mutation_score_bounds ⟨[], 1, 1, 0, [killedResult], 0, Option.none, []⟩ rfl⟩


/-! ## Unfolding equations for the applier

The applier is a large mutual structural recursion; these restate its
per-constructor reduction behaviour as definitional equations, used in place
of automatically generated equation lemmas. -/

theorem applyNodeEq_binOp (m : Mutant) (p : Loc) (op : PyOp) (l r : PyAST)
    (a : Bool) :
    applyNode m (.binOp p op l r) a =
      (let opA := if fires m p "BinOp" then
          (match opClasses m.replacementOp with
           | some c => (c, true)
           | Option.none => (op, a))
        else (op, a)
       let lA := applyNode m l opA.2
       let rA := applyNode m r lA.2
       (.binOp p opA.1 lA.1 rA.1, rA.2)) := rfl

theorem applyNodeEq_compare (m : Mutant) (p : Loc) (left : PyAST)
    (ops : List PyOp) (comparators : List PyAST) (a : Bool) :
    applyNode m (.compare p left ops comparators) a =
      (let opsA := if fires m p "Compare" then
          (match opClasses m.replacementOp with
           | some c => (ops.map (fun _ => c), true)
           | Option.none => (ops, a))
        else (ops, a)
       let leftA := applyNode m left opsA.2
       let compsA := applyList m comparators leftA.2
       (.compare p leftA.1 opsA.1 compsA.1, compsA.2)) := rfl

theorem applyNodeEq_boolOp (m : Mutant) (p : Loc) (op : PyOp)
    (values : List PyAST) (a : Bool) :
    applyNode m (.boolOp p op values) a =
      (let opA := if fires m p "BoolOp" then
          (match opClasses m.replacementOp with
           | some c => (c, true)
           | Option.none => (op, a))
        else (op, a)
       let valsA := applyList m values opA.2
       (.boolOp p opA.1 valsA.1, valsA.2)) := rfl

theorem applyNodeEq_unaryOp (m : Mutant) (p : Loc) (op : PyOp)
    (operand : PyAST) (a : Bool) :
    applyNode m (.unaryOp p op operand) a =
      (if fires m p "UnaryOp" then
        if m.replacementOp == "_remove" then (operand, true)
        else
          match opClasses m.replacementOp with
          | some c =>
              let operandA := applyNode m operand true
              (.unaryOp p c operandA.1, operandA.2)
          | Option.none =>
              let operandA := applyNode m operand a
              (.unaryOp p op operandA.1, operandA.2)
      else
        let operandA := applyNode m operand a
        (.unaryOp p op operandA.1, operandA.2)) := rfl

theorem applyNodeEq_ifExp (m : Mutant) (p : Loc) (test body orelse : PyAST)
    (a : Bool) :
    applyNode m (.ifExp p test body orelse) a =
      (let tA := applyNode m test a
       let bA := applyNode m body tA.2
       let oA := applyNode m orelse bA.2
       (.ifExp p tA.1 bA.1 oA.1, oA.2)) := rfl

theorem applyNodeEq_constE (m : Mutant) (p : Loc) (v : ConstVal) (a : Bool) :
    applyNode m (.constE p v) a = (.constE p v, a) := rfl

theorem applyNodeEq_nameE (m : Mutant) (p : Loc) (id : String) (a : Bool) :
    applyNode m (.nameE p id) a = (.nameE p id, a) := rfl

theorem applyNodeEq_call (m : Mutant) (p : Loc) (func : PyAST)
    (args : List PyAST) (a : Bool) :
    applyNode m (.call p func args) a =
      (let fA := applyNode m func a
       let argsA := applyList m args fA.2
       (.call p fA.1 argsA.1, argsA.2)) := rfl

theorem applyNodeEq_exprStmt (m : Mutant) (p : Loc) (value : PyAST)
    (a : Bool) :
    applyNode m (.exprStmt p value) a =
      (let vA := applyNode m value a
       (.exprStmt p vA.1, vA.2)) := rfl

theorem applyNodeEq_ret_some (m : Mutant) (p : Loc) (v : PyAST) (a : Bool) :
    applyNode m (.ret p (some v)) a =
      retSome m p a (applyNode m v true) (applyNode m v a)
        (applyOperandOfUnary m v) := rfl

theorem applyNodeEq_ret_none (m : Mutant) (p : Loc) (a : Bool) :
    applyNode m (.ret p Option.none) a = retNone m p a := rfl

theorem applyNodeEq_augAssign (m : Mutant) (p : Loc) (target : PyAST)
    (op : PyOp) (value : PyAST) (a : Bool) :
    applyNode m (.augAssign p target op value) a =
      (let tA := applyNode m target a
       let vA := applyNode m value tA.2
       (.augAssign p tA.1 op vA.1, vA.2)) := rfl

theorem applyNodeEq_breakStmt (m : Mutant) (p : Loc) (a : Bool) :
    applyNode m (.breakStmt p) a = (.breakStmt p, a) := rfl

theorem applyNodeEq_continueStmt (m : Mutant) (p : Loc) (a : Bool) :
    applyNode m (.continueStmt p) a = (.continueStmt p, a) := rfl

theorem applyNodeEq_forStmt (m : Mutant) (p : Loc) (target iter : PyAST)
    (body : List PyAST) (a : Bool) :
    applyNode m (.forStmt p target iter body) a =
      (let tA := applyNode m target a
       let iA := applyNode m iter tA.2
       let bA := applyList m body iA.2
       (.forStmt p tA.1 iA.1 bA.1, bA.2)) := rfl

theorem applyNodeEq_tryStmt (m : Mutant) (p : Loc)
    (body handlers orelse finalbody : List PyAST) (a : Bool) :
    applyNode m (.tryStmt p body handlers orelse finalbody) a =
      (let bA := applyList m body a
       let hA := applyList m handlers bA.2
       let oA := applyList m orelse hA.2
       let fA := applyList m finalbody oA.2
       (.tryStmt p bA.1 hA.1 oA.1 fA.1, fA.2)) := rfl

theorem applyNodeEq_exceptHandler (m : Mutant) (p : Loc)
    (typeFilter : Option PyAST) (body : List PyAST) (a : Bool) :
    applyNode m (.exceptHandler p typeFilter body) a =
      (let tA := applyOpt m typeFilter a
       let bA := applyList m body tA.2
       (.exceptHandler p tA.1 bA.1, bA.2)) := rfl

theorem applyNodeEq_raiseStmt (m : Mutant) (p : Loc) (exc : Option PyAST)
    (a : Bool) :
    applyNode m (.raiseStmt p exc) a =
      (let eA := applyOpt m exc a
       (.raiseStmt p eA.1, eA.2)) := rfl

theorem applyNodeEq_funcDef (m : Mutant) (p : Loc) (nm : String)
    (body : List PyAST) (a : Bool) :
    applyNode m (.funcDef p nm body) a =
      (let bA := applyList m body a
       (.funcDef p nm bA.1, bA.2)) := rfl

theorem applyNodeEq_passStmt (m : Mutant) (p : Loc) (a : Bool) :
    applyNode m (.passStmt p) a = (.passStmt p, a) := rfl

theorem applyListEq_nil (m : Mutant) (a : Bool) :
    applyList m [] a = ([], a) := rfl

theorem applyListEq_cons (m : Mutant) (n : PyAST) (ns : List PyAST)
    (a : Bool) :
    applyList m (n :: ns) a =
      (let nA := applyNode m n a
       let nsA := applyList m ns nA.2
       (nA.1 :: nsA.1, nsA.2)) := rfl

theorem applyOptEq_none (m : Mutant) (a : Bool) :
    applyOpt m Option.none a = (Option.none, a) := rfl

theorem applyOptEq_some (m : Mutant) (n : PyAST) (a : Bool) :
    applyOpt m (some n) a =
      (let nA := applyNode m n a
       (some nA.1, nA.2)) := rfl

/-! ## Frame lemmas for the applier (exact-match safety) -/

theorem fires_nodeType (m : Mutant) (p : Loc) (k : String)
    (hf : fires m p k = true) : m.point.nodeType = k := by
  simp [fires] at hf
  exact hf.2

theorem opClasses_none_of_unrecognized (kind tag : String)
    (hk : kind = "BinOp" ∨ kind = "Compare" ∨ kind = "BoolOp")
    (h : recognizedFor kind tag = false) : opClasses tag = Option.none := by
  cases hoc : opClasses tag with
  | none => rfl
  | some c => rcases hk with rfl | rfl | rfl <;> simp [recognizedFor, hoc] at h

theorem unary_tags_of_unrecognized (tag : String)
    (h : recognizedFor "UnaryOp" tag = false) :
    (tag == "_remove") = false ∧ opClasses tag = Option.none := by
  constructor
  · cases hc : (tag == "_remove") with
    | false => rfl
    | true => simp [recognizedFor, hc] at h
  · cases hoc : opClasses tag with
    | none => rfl
    | some c => simp [recognizedFor, hoc] at h

theorem return_tags_of_unrecognized (tag : String)
    (h : recognizedFor "Return" tag = false) :
    (tag == "False") = false ∧ (tag == "True") = false
    ∧ (tag == "None") = false ∧ (tag == "negate") = false
    ∧ (tag == "negate_expr") = false ∧ (tag == "remove_negation") = false
    ∧ (tag == "empty_str") = false := by
  refine ⟨?_, ?_, ?_, ?_, ?_, ?_, ?_⟩
  · cases hc : (tag == "False") with
    | false => rfl
    | true => simp [recognizedFor, hc] at h
  · cases hc : (tag == "True") with
    | false => rfl
    | true => simp [recognizedFor, hc] at h
  · cases hc : (tag == "None") with
    | false => rfl
    | true => simp [recognizedFor, hc] at h
  · cases hc : (tag == "negate") with
    | false => rfl
    | true => simp [recognizedFor, hc] at h
  · cases hc : (tag == "negate_expr") with
    | false => rfl
    | true => simp [recognizedFor, hc] at h
  · cases hc : (tag == "remove_negation") with
    | false => rfl
    | true => simp [recognizedFor, hc] at h
  · cases hc : (tag == "empty_str") with
    | false => rfl
    | true => simp [recognizedFor, hc] at h

theorem retNone_frame (m : Mutant) (p : Loc) (a : Bool)
    (h : fires m p "Return" = false
      ∨ recognizedFor m.point.nodeType m.replacementOp = false) :
    retNone m p a = (.ret p Option.none, a) := by
  rcases h with h | h
  · rw [retNone.eq_def, h]
    simp only [Bool.false_eq_true, if_false]
  · cases hff : fires m p "Return" with
    | false =>
        rw [retNone.eq_def, hff]
        simp only [Bool.false_eq_true, if_false]
    | true =>
        have ht := return_tags_of_unrecognized m.replacementOp
          ((fires_nodeType m p _ hff) ▸ h)
        rw [retNone.eq_def, hff]
        simp only [ht.1, ht.2.1, ht.2.2.1, ht.2.2.2.1, ht.2.2.2.2.1,
          ht.2.2.2.2.2.1, ht.2.2.2.2.2.2, Bool.false_eq_true, if_false,
          if_true]

theorem retSome_frame (m : Mutant) (p : Loc) (a : Bool)
    (vTrue vA : PyAST × Bool) (opr : Option (PyAST × Bool))
    (h : fires m p "Return" = false
      ∨ recognizedFor m.point.nodeType m.replacementOp = false) :
    retSome m p a vTrue vA opr = (.ret p (some vA.1), vA.2) := by
  rcases h with h | h
  · rw [retSome.eq_def, h]
    simp only [Bool.false_eq_true, if_false]
  · cases hff : fires m p "Return" with
    | false =>
        rw [retSome.eq_def, hff]
        simp only [Bool.false_eq_true, if_false]
    | true =>
        have ht := return_tags_of_unrecognized m.replacementOp
          ((fires_nodeType m p _ hff) ▸ h)
        rw [retSome.eq_def, hff]
        simp only [ht.1, ht.2.1, ht.2.2.1, ht.2.2.2.1, ht.2.2.2.2.1,
          ht.2.2.2.2.2.1, ht.2.2.2.2.2.2, Bool.false_eq_true, if_false,
          if_true]

mutual

theorem applyNode_frame (m : Mutant) (n : PyAST)
    (h : hasKindAt m.point.lineno m.point.colOffset m.point.nodeType n = false
      ∨ recognizedFor m.point.nodeType m.replacementOp = false) (a : Bool) :
    applyNode m n a = (n, a) := by
  cases n with
  | binOp p op l r =>
      rw [applyNodeEq_binOp]
      rcases h with h | h
      · simp only [hasKindAt, Bool.or_eq_false_iff] at h
        have hf : fires m p "BinOp" = false := by simpa [fires] using h.1.1
        simp only [hf, Bool.false_eq_true, if_false,
          applyNode_frame m l (Or.inl h.1.2) a,
          applyNode_frame m r (Or.inl h.2) a]
      · cases hff : fires m p "BinOp" with
        | false =>
            simp only [hff, Bool.false_eq_true, if_false,
              applyNode_frame m l (Or.inr h) a,
              applyNode_frame m r (Or.inr h) a]
        | true =>
            have hoc : opClasses m.replacementOp = Option.none :=
              opClasses_none_of_unrecognized _ _
                (Or.inl (fires_nodeType m p _ hff))
                ((fires_nodeType m p _ hff) ▸ h)
            simp only [hff, hoc, eq_self_iff_true, if_true,
              applyNode_frame m l (Or.inr h) a,
              applyNode_frame m r (Or.inr h) a]
  | compare p left ops comparators =>
      rw [applyNodeEq_compare]
      rcases h with h | h
      · simp only [hasKindAt, Bool.or_eq_false_iff] at h
        have hf : fires m p "Compare" = false := by simpa [fires] using h.1.1
        simp only [hf, Bool.false_eq_true, if_false,
          applyNode_frame m left (Or.inl h.1.2) a,
          applyList_frame m comparators (Or.inl h.2) a]
      · cases hff : fires m p "Compare" with
        | false =>
            simp only [hff, Bool.false_eq_true, if_false,
              applyNode_frame m left (Or.inr h) a,
              applyList_frame m comparators (Or.inr h) a]
        | true =>
            have hoc : opClasses m.replacementOp = Option.none :=
              opClasses_none_of_unrecognized _ _
                (Or.inr (Or.inl (fires_nodeType m p _ hff)))
                ((fires_nodeType m p _ hff) ▸ h)
            simp only [hff, hoc, eq_self_iff_true, if_true,
              applyNode_frame m left (Or.inr h) a,
              applyList_frame m comparators (Or.inr h) a]
  | boolOp p op values =>
      rw [applyNodeEq_boolOp]
      rcases h with h | h
      · simp only [hasKindAt, Bool.or_eq_false_iff] at h
        have hf : fires m p "BoolOp" = false := by simpa [fires] using h.1
        simp only [hf, Bool.false_eq_true, if_false,
          applyList_frame m values (Or.inl h.2) a]
      · cases hff : fires m p "BoolOp" with
        | false =>
            simp only [hff, Bool.false_eq_true, if_false,
              applyList_frame m values (Or.inr h) a]
        | true =>
            have hoc : opClasses m.replacementOp = Option.none :=
              opClasses_none_of_unrecognized _ _
                (Or.inr (Or.inr (fires_nodeType m p _ hff)))
                ((fires_nodeType m p _ hff) ▸ h)
            simp only [hff, hoc, eq_self_iff_true, if_true,
              applyList_frame m values (Or.inr h) a]
  | unaryOp p op operand =>
      rw [applyNodeEq_unaryOp]
      rcases h with h | h
      · simp only [hasKindAt, Bool.or_eq_false_iff] at h
        have hf : fires m p "UnaryOp" = false := by simpa [fires] using h.1
        simp only [hf, Bool.false_eq_true, if_false,
          applyNode_frame m operand (Or.inl h.2) a]
      · cases hff : fires m p "UnaryOp" with
        | false =>
            simp only [hff, Bool.false_eq_true, if_false,
              applyNode_frame m operand (Or.inr h) a]
        | true =>
            have hu := unary_tags_of_unrecognized m.replacementOp
              ((fires_nodeType m p _ hff) ▸ h)
            simp only [hff, hu.1, hu.2, eq_self_iff_true, if_true,
              Bool.false_eq_true, if_false,
              applyNode_frame m operand (Or.inr h) a]
  | ifExp p test body orelse =>
      rw [applyNodeEq_ifExp]
      rcases h with h | h
      · simp only [hasKindAt, Bool.or_eq_false_iff] at h
        simp only [applyNode_frame m test (Or.inl h.1.1.2) a,
          applyNode_frame m body (Or.inl h.1.2) a,
          applyNode_frame m orelse (Or.inl h.2) a]
      · simp only [applyNode_frame m test (Or.inr h) a,
          applyNode_frame m body (Or.inr h) a,
          applyNode_frame m orelse (Or.inr h) a]
  | constE p v => rw [applyNodeEq_constE]
  | nameE p id => rw [applyNodeEq_nameE]
  | call p func args =>
      rw [applyNodeEq_call]
      rcases h with h | h
      · simp only [hasKindAt, Bool.or_eq_false_iff] at h
        simp only [applyNode_frame m func (Or.inl h.1.2) a,
          applyList_frame m args (Or.inl h.2) a]
      · simp only [applyNode_frame m func (Or.inr h) a,
          applyList_frame m args (Or.inr h) a]
  | exprStmt p value =>
      rw [applyNodeEq_exprStmt]
      rcases h with h | h
      · simp only [hasKindAt, Bool.or_eq_false_iff] at h
        simp only [applyNode_frame m value (Or.inl h.2) a]
      · simp only [applyNode_frame m value (Or.inr h) a]
  | ret p value =>
      cases value with
      | none =>
          rw [applyNodeEq_ret_none]
          rcases h with h | h
          · simp only [hasKindAt, Bool.or_eq_false_iff] at h
            exact retNone_frame m p a (Or.inl (by simpa [fires] using h.1))
          · exact retNone_frame m p a (Or.inr h)
      | some v =>
          rw [applyNodeEq_ret_some]
          rcases h with h | h
          · simp only [hasKindAt, Bool.or_eq_false_iff, hasKindAtOpt] at h
            rw [retSome_frame m p a _ _ _ (Or.inl (by simpa [fires] using h.1)),
              applyNode_frame m v (Or.inl h.2) a]
          · rw [retSome_frame m p a _ _ _ (Or.inr h),
              applyNode_frame m v (Or.inr h) a]
  | augAssign p target op value =>
      rw [applyNodeEq_augAssign]
      rcases h with h | h
      · simp only [hasKindAt, Bool.or_eq_false_iff] at h
        simp only [applyNode_frame m target (Or.inl h.1.2) a,
          applyNode_frame m value (Or.inl h.2) a]
      · simp only [applyNode_frame m target (Or.inr h) a,
          applyNode_frame m value (Or.inr h) a]
  | breakStmt p => rw [applyNodeEq_breakStmt]
  | continueStmt p => rw [applyNodeEq_continueStmt]
  | forStmt p target iter body =>
      rw [applyNodeEq_forStmt]
      rcases h with h | h
      · simp only [hasKindAt, Bool.or_eq_false_iff] at h
        simp only [applyNode_frame m target (Or.inl h.1.1.2) a,
          applyNode_frame m iter (Or.inl h.1.2) a,
          applyList_frame m body (Or.inl h.2) a]
      · simp only [applyNode_frame m target (Or.inr h) a,
          applyNode_frame m iter (Or.inr h) a,
          applyList_frame m body (Or.inr h) a]
  | tryStmt p body handlers orelse finalbody =>
      rw [applyNodeEq_tryStmt]
      rcases h with h | h
      · simp only [hasKindAt, Bool.or_eq_false_iff] at h
        simp only [applyList_frame m body (Or.inl h.1.1.1.2) a,
          applyList_frame m handlers (Or.inl h.1.1.2) a,
          applyList_frame m orelse (Or.inl h.1.2) a,
          applyList_frame m finalbody (Or.inl h.2) a]
      · simp only [applyList_frame m body (Or.inr h) a,
          applyList_frame m handlers (Or.inr h) a,
          applyList_frame m orelse (Or.inr h) a,
          applyList_frame m finalbody (Or.inr h) a]
  | exceptHandler p typeFilter body =>
      rw [applyNodeEq_exceptHandler]
      rcases h with h | h
      · simp only [hasKindAt, Bool.or_eq_false_iff] at h
        simp only [applyOpt_frame m typeFilter (Or.inl h.1.2) a,
          applyList_frame m body (Or.inl h.2) a]
      · simp only [applyOpt_frame m typeFilter (Or.inr h) a,
          applyList_frame m body (Or.inr h) a]
  | raiseStmt p exc =>
      rw [applyNodeEq_raiseStmt]
      rcases h with h | h
      · simp only [hasKindAt, Bool.or_eq_false_iff] at h
        simp only [applyOpt_frame m exc (Or.inl h.2) a]
      · simp only [applyOpt_frame m exc (Or.inr h) a]
  | funcDef p nm body =>
      rw [applyNodeEq_funcDef]
      rcases h with h | h
      · simp only [hasKindAt, Bool.or_eq_false_iff] at h
        simp only [applyList_frame m body (Or.inl h.2) a]
      · simp only [applyList_frame m body (Or.inr h) a]
  | passStmt p => rw [applyNodeEq_passStmt]

theorem applyList_frame (m : Mutant) (ns : List PyAST)
    (h : hasKindAtList m.point.lineno m.point.colOffset m.point.nodeType ns
        = false
      ∨ recognizedFor m.point.nodeType m.replacementOp = false) (a : Bool) :
    applyList m ns a = (ns, a) := by
  cases ns with
  | nil => rw [applyListEq_nil]
  | cons n rest =>
      rw [applyListEq_cons]
      rcases h with h | h
      · simp only [hasKindAtList, Bool.or_eq_false_iff] at h
        simp only [applyNode_frame m n (Or.inl h.1) a,
          applyList_frame m rest (Or.inl h.2) a]
      · simp only [applyNode_frame m n (Or.inr h) a,
          applyList_frame m rest (Or.inr h) a]

theorem applyOpt_frame (m : Mutant) (o : Option PyAST)
    (h : hasKindAtOpt m.point.lineno m.point.colOffset m.point.nodeType o
        = false
      ∨ recognizedFor m.point.nodeType m.replacementOp = false) (a : Bool) :
    applyOpt m o a = (o, a) := by
  cases o with
  | none => rw [applyOptEq_none]
  | some n =>
      rw [applyOptEq_some]
      rcases h with h | h
      · simp only [hasKindAtOpt] at h
        simp only [applyNode_frame m n (Or.inl h) a]
      · simp only [applyNode_frame m n (Or.inr h) a]

end

/-- C1: exact-match safety of the Mutation Applier — for every source tree
and every Mutant whose (line, column, node kind) triple matches no node in
the tree, or whose replacement tag is not one the applier's dispatch
recognizes for the point's node kind, `apply_mutation` returns the tree
completely unmodified with `applied=False`. -/
theorem exact_match_safety (m : Mutant) (tree : List PyAST)
    (h : hasKindAtList m.point.lineno m.point.colOffset m.point.nodeType tree
        = false
      ∨ recognizedFor m.point.nodeType m.replacementOp = false) :
    applyMutation m tree = (tree, false) :=
  applyList_frame m tree h false

/-- C1 witness: a BinOp mutant aimed at line 99 of a one-statement module
(no matching node), and an AugAssign mutant whose tag the applier does not
recognize at a matching position; both leave the tree unchanged with
`applied=False`. -/
theorem exact_match_safety_witness :
    (hasKindAtList 99 0 "BinOp" [.passStmt ⟨1, 0⟩] = false
      ∧ applyMutation ⟨⟨"w.py", "w", 99, 0, "BinOp", "Add", Option.none⟩, "Sub", 7⟩
          [.passStmt ⟨1, 0⟩] = ([.passStmt ⟨1, 0⟩], false))
    ∧ (recognizedFor "AugAssign" "Sub" = false
      ∧ applyMutation ⟨⟨"w.py", "w", 1, 0, "AugAssign", "Add", Option.none⟩, "Sub", 8⟩
          [.augAssign ⟨1, 0⟩ (.nameE ⟨1, 0⟩ "x") .add (.nameE ⟨1, 5⟩ "y")]
          = ([.augAssign ⟨1, 0⟩ (.nameE ⟨1, 0⟩ "x") .add (.nameE ⟨1, 5⟩ "y")],
              false)) :=
  ⟨⟨rfl, exact_match_safety _ _ (Or.inl rfl)⟩,
   ⟨rfl, exact_match_safety _ _ (Or.inr rfl)⟩⟩

/-! ## Scanner soundness (locations of emitted points) -/

theorem exceptHandlerPoints_mem (fp mn : String) (p : Loc)
    (ty : Option PyAST) (body : List PyAST) (pt : MutationPoint)
    (h : pt ∈ exceptHandlerPoints fp mn p ty body) :
    pt.lineno = p.lineno ∧ pt.colOffset = p.colOffset
    ∧ pt.nodeType = "ExceptHandler" ∧ pt.filePath = fp
    ∧ pt.moduleName = mn := by
  unfold exceptHandlerPoints at h
  split_ifs at h <;>
    first
    | exact absurd h (List.not_mem_nil _)
    | · rw [List.mem_singleton] at h
        subst h
        exact ⟨rfl, rfl, rfl, rfl, rfl⟩

mutual

theorem collectNode_sound (fp mn : String) (n : PyAST) (pt : MutationPoint)
    (h : pt ∈ collectNode fp mn n) :
    hasKindAt pt.lineno pt.colOffset pt.nodeType n = true
    ∧ pt.filePath = fp ∧ pt.moduleName = mn := by
  cases n with
  | binOp p op l r =>
      simp only [collectNode] at h
      rcases List.mem_append.mp h with h | h
      · rcases List.mem_append.mp h with h | h
        · cases hbn : binopNames op with
          | none => rw [hbn] at h; exact absurd h (List.not_mem_nil _)
          | some s =>
              rw [hbn, List.mem_singleton] at h
              subst h
              exact ⟨by simp [hasKindAt], rfl, rfl⟩
        · obtain ⟨h1, h2, h3⟩ := collectNode_sound fp mn l pt h
          exact ⟨by simp [hasKindAt, h1], h2, h3⟩
      · obtain ⟨h1, h2, h3⟩ := collectNode_sound fp mn r pt h
        exact ⟨by simp [hasKindAt, h1], h2, h3⟩
  | compare p left ops comparators =>
      simp only [collectNode] at h
      rcases List.mem_append.mp h with h | h
      · rcases List.mem_append.mp h with h | h
        · obtain ⟨op, -, hmap⟩ := List.mem_filterMap.mp h
          obtain ⟨s, -, hpt⟩ := Option.map_eq_some'.mp hmap
          subst hpt
          exact ⟨by simp [hasKindAt], rfl, rfl⟩
        · obtain ⟨h1, h2, h3⟩ := collectNode_sound fp mn left pt h
          exact ⟨by simp [hasKindAt, h1], h2, h3⟩
      · obtain ⟨h1, h2, h3⟩ := collectList_sound fp mn comparators pt h
        exact ⟨by simp [hasKindAt, h1], h2, h3⟩
  | boolOp p op values =>
      simp only [collectNode] at h
      rcases List.mem_append.mp h with h | h
      · cases hbn : boolopNames op with
        | none => rw [hbn] at h; exact absurd h (List.not_mem_nil _)
        | some s =>
            rw [hbn, List.mem_singleton] at h
            subst h
            exact ⟨by simp [hasKindAt], rfl, rfl⟩
      · obtain ⟨h1, h2, h3⟩ := collectList_sound fp mn values pt h
        exact ⟨by simp [hasKindAt, h1], h2, h3⟩
  | unaryOp p op operand =>
      simp only [collectNode] at h
      rcases List.mem_append.mp h with h | h
      · cases hbn : unaryopNames op with
        | none => rw [hbn] at h; exact absurd h (List.not_mem_nil _)
        | some s =>
            rw [hbn, List.mem_singleton] at h
            subst h
            exact ⟨by simp [hasKindAt], rfl, rfl⟩
      · obtain ⟨h1, h2, h3⟩ := collectNode_sound fp mn operand pt h
        exact ⟨by simp [hasKindAt, h1], h2, h3⟩
  | ifExp p test body orelse =>
      simp only [collectNode] at h
      rcases List.mem_cons.mp h with h | h
      · subst h
        exact ⟨by simp [hasKindAt], rfl, rfl⟩
      · rcases List.mem_append.mp h with h | h
        · rcases List.mem_append.mp h with h | h
          · obtain ⟨h1, h2, h3⟩ := collectNode_sound fp mn test pt h
            exact ⟨by simp [hasKindAt, h1], h2, h3⟩
          · obtain ⟨h1, h2, h3⟩ := collectNode_sound fp mn body pt h
            exact ⟨by simp [hasKindAt, h1], h2, h3⟩
        · obtain ⟨h1, h2, h3⟩ := collectNode_sound fp mn orelse pt h
          exact ⟨by simp [hasKindAt, h1], h2, h3⟩
  | constE p v => simp only [collectNode] at h; exact absurd h (List.not_mem_nil _)
  | nameE p id => simp only [collectNode] at h; exact absurd h (List.not_mem_nil _)
  | call p func args =>
      simp only [collectNode] at h
      rcases List.mem_append.mp h with h | h
      · obtain ⟨h1, h2, h3⟩ := collectNode_sound fp mn func pt h
        exact ⟨by simp [hasKindAt, h1], h2, h3⟩
      · obtain ⟨h1, h2, h3⟩ := collectList_sound fp mn args pt h
        exact ⟨by simp [hasKindAt, h1], h2, h3⟩
  | exprStmt p value =>
      simp only [collectNode] at h
      obtain ⟨h1, h2, h3⟩ := collectNode_sound fp mn value pt h
      exact ⟨by simp [hasKindAt, h1], h2, h3⟩
  | ret p value =>
      cases value with
      | none => simp only [collectNode] at h; exact absurd h (List.not_mem_nil _)
      | some v =>
          simp only [collectNode] at h
          rcases List.mem_cons.mp h with h | h
          · subst h
            exact ⟨by simp [hasKindAt], rfl, rfl⟩
          · obtain ⟨h1, h2, h3⟩ := collectNode_sound fp mn v pt h
            exact ⟨by simp [hasKindAt, hasKindAtOpt, h1], h2, h3⟩
  | augAssign p target op value =>
      simp only [collectNode] at h
      rcases List.mem_append.mp h with h | h
      · rcases List.mem_append.mp h with h | h
        · cases hbn : binopNames op with
          | none => rw [hbn] at h; exact absurd h (List.not_mem_nil _)
          | some s =>
              rw [hbn, List.mem_singleton] at h
              subst h
              exact ⟨by simp [hasKindAt], rfl, rfl⟩
        · obtain ⟨h1, h2, h3⟩ := collectNode_sound fp mn target pt h
          exact ⟨by simp [hasKindAt, h1], h2, h3⟩
      · obtain ⟨h1, h2, h3⟩ := collectNode_sound fp mn value pt h
        exact ⟨by simp [hasKindAt, h1], h2, h3⟩
  | breakStmt p =>
      simp only [collectNode, List.mem_singleton] at h
      subst h
      exact ⟨by simp [hasKindAt], rfl, rfl⟩
  | continueStmt p =>
      simp only [collectNode, List.mem_singleton] at h
      subst h
      exact ⟨by simp [hasKindAt], rfl, rfl⟩
  | forStmt p target iter body =>
      simp only [collectNode] at h
      rcases List.mem_append.mp h with h | h
      · rcases List.mem_append.mp h with h | h
        · obtain ⟨h1, h2, h3⟩ := collectNode_sound fp mn target pt h
          exact ⟨by simp [hasKindAt, h1], h2, h3⟩
        · obtain ⟨h1, h2, h3⟩ := collectNode_sound fp mn iter pt h
          exact ⟨by simp [hasKindAt, h1], h2, h3⟩
      · obtain ⟨h1, h2, h3⟩ := collectList_sound fp mn body pt h
        exact ⟨by simp [hasKindAt, h1], h2, h3⟩
  | tryStmt p body handlers orelse finalbody =>
      simp only [collectNode] at h
      rcases List.mem_append.mp h with h | h
      · rcases List.mem_append.mp h with h | h
        · rcases List.mem_append.mp h with h | h
          · obtain ⟨h1, h2, h3⟩ := collectList_sound fp mn body pt h
            exact ⟨by simp [hasKindAt, h1], h2, h3⟩
          · obtain ⟨h1, h2, h3⟩ := collectList_sound fp mn handlers pt h
            exact ⟨by simp [hasKindAt, h1], h2, h3⟩
        · obtain ⟨h1, h2, h3⟩ := collectList_sound fp mn orelse pt h
          exact ⟨by simp [hasKindAt, h1], h2, h3⟩
      · obtain ⟨h1, h2, h3⟩ := collectList_sound fp mn finalbody pt h
        exact ⟨by simp [hasKindAt, h1], h2, h3⟩
  | exceptHandler p typeFilter body =>
      simp only [collectNode] at h
      rcases List.mem_append.mp h with h | h
      · rcases List.mem_append.mp h with h | h
        · obtain ⟨e1, e2, e3, e4, e5⟩ :=
            exceptHandlerPoints_mem fp mn p typeFilter body pt h
          exact ⟨by simp [hasKindAt, e1, e2, e3], e4, e5⟩
        · obtain ⟨h1, h2, h3⟩ := collectOpt_sound fp mn typeFilter pt h
          exact ⟨by simp [hasKindAt, h1], h2, h3⟩
      · obtain ⟨h1, h2, h3⟩ := collectList_sound fp mn body pt h
        exact ⟨by simp [hasKindAt, h1], h2, h3⟩
  | raiseStmt p exc =>
      simp only [collectNode] at h
      obtain ⟨h1, h2, h3⟩ := collectOpt_sound fp mn exc pt h
      exact ⟨by simp [hasKindAt, h1], h2, h3⟩
  | funcDef p nm body =>
      simp only [collectNode] at h
      obtain ⟨h1, h2, h3⟩ := collectList_sound fp mn body pt h
      exact ⟨by simp [hasKindAt, h1], h2, h3⟩
  | passStmt p =>
      simp only [collectNode] at h
      exact absurd h (List.not_mem_nil _)

theorem collectList_sound (fp mn : String) (ns : List PyAST)
    (pt : MutationPoint) (h : pt ∈ collectList fp mn ns) :
    hasKindAtList pt.lineno pt.colOffset pt.nodeType ns = true
    ∧ pt.filePath = fp ∧ pt.moduleName = mn := by
  cases ns with
  | nil => simp only [collectList] at h; exact absurd h (List.not_mem_nil _)
  | cons n rest =>
      simp only [collectList] at h
      rcases List.mem_append.mp h with h | h
      · obtain ⟨h1, h2, h3⟩ := collectNode_sound fp mn n pt h
        exact ⟨by simp [hasKindAtList, h1], h2, h3⟩
      · obtain ⟨h1, h2, h3⟩ := collectList_sound fp mn rest pt h
        exact ⟨by simp [hasKindAtList, h1], h2, h3⟩

theorem collectOpt_sound (fp mn : String) (o : Option PyAST)
    (pt : MutationPoint) (h : pt ∈ collectOpt fp mn o) :
    hasKindAtOpt pt.lineno pt.colOffset pt.nodeType o = true
    ∧ pt.filePath = fp ∧ pt.moduleName = mn := by
  cases o with
  | none => simp only [collectOpt] at h; exact absurd h (List.not_mem_nil _)
  | some n =>
      simp only [collectOpt] at h
      obtain ⟨h1, h2, h3⟩ := collectNode_sound fp mn n pt h
      exact ⟨by simp [hasKindAtOpt, h1], h2, h3⟩

end

/-- C3 (amended): the (line, column, node kind) triple does not uniquely
identify a point — chained comparisons emit one point per operator, all at
the chain's location.  What holds instead: every `MutationPoint` produced by
`find_mutation_points` carries the scanner's file path and module name and
the location and kind of an actual node of the tree. -/
theorem scanner_points_locate_nodes (fp mn : String) (tree : List PyAST)
    (pt : MutationPoint) (h : pt ∈ findMutationPoints fp mn tree) :
    hasKindAtList pt.lineno pt.colOffset pt.nodeType tree = true
    ∧ pt.filePath = fp ∧ pt.moduleName = mn :=
  collectList_sound fp mn tree pt h

/-- C3 witness: the soundness theorem applied to the first point of the
chained comparison `a < b < c`. -/
theorem scanner_points_locate_nodes_witness :
    (⟨"f.py", "m", 1, 0, "Compare", "Lt", Option.none⟩ : MutationPoint)
      ∈ findMutationPoints "f.py" "m"
        [.exprStmt ⟨1, 0⟩ (.compare ⟨1, 0⟩ (.nameE ⟨1, 0⟩ "a") [.lt, .lt]
          [.nameE ⟨1, 4⟩ "b", .nameE ⟨1, 8⟩ "c"])]
    ∧ (hasKindAtList 1 0 "Compare"
        [.exprStmt ⟨1, 0⟩ (.compare ⟨1, 0⟩ (.nameE ⟨1, 0⟩ "a") [.lt, .lt]
          [.nameE ⟨1, 4⟩ "b", .nameE ⟨1, 8⟩ "c"])] = true
      ∧ (⟨"f.py", "m", 1, 0, "Compare", "Lt", Option.none⟩ : MutationPoint).filePath
          = "f.py"
      ∧ (⟨"f.py", "m", 1, 0, "Compare", "Lt", Option.none⟩ : MutationPoint).moduleName
          = "m") :=
  ⟨by decide,
    scanner_points_locate_nodes "f.py" "m"
      [.exprStmt ⟨1, 0⟩ (.compare ⟨1, 0⟩ (.nameE ⟨1, 0⟩ "a") [.lt, .lt]
        [.nameE ⟨1, 4⟩ "b", .nameE ⟨1, 8⟩ "c"])]
      ⟨"f.py", "m", 1, 0, "Compare", "Lt", Option.none⟩ (by decide)⟩
